import Mathlib

/-!
Verification development for the belief-sensitivity explorer's network-analysis
and aggregate-metrics core.

The TypeScript source is shallowly embedded: JS numbers are modelled as exact
rationals (ℚ), JS `null` as `Option`, records keyed by node-id strings as
association lists, and the one partial computation (an array dereference that
throws on an empty node list) as an `Option`-valued function.  All definitions
are transcribed from the source files (`computeNetworkAnalysis` and
`runFullPipeline` in the route module, `computeMetrics` in the prepare-data
script); normalisations that the source leaves to the JS runtime (stable
`Array.prototype.sort`, first-match `Array.prototype.find`, insertion-ordered
`Object.values`) are made explicit.
-/

namespace BSE

/-- Association-list lookup, mirroring JS `record[key]` access (first binding
wins; the records built by the source never hold duplicate keys for graphs
with unique node ids). -/
def alookup {α : Type} : List (String × α) → String → Option α
  | [], _ => none
  | (k, v) :: rest, x => if k = x then some v else alookup rest x

/-- Remove duplicates keeping the first occurrence, as BFS discovery does. -/
def nubAux : List String → List String → List String
  | [], _ => []
  | x :: xs, seen => if x ∈ seen then nubAux xs seen else x :: nubAux xs (x :: seen)

def nub (l : List String) : List String := nubAux l []

/-- Index of the first occurrence of a value, mirroring JS `indexOf` on a list
that is known to contain the value. -/
def firstIdx (x : ℚ) : List ℚ → Nat
  | [] => 0
  | y :: ys => if y = x then 0 else firstIdx x ys + 1

/-- `xs.length > 0 ? xs.reduce((a,b)=>a+b,0)/xs.length : 0` — the guarded mean
the source writes inline at every aggregation site. -/
def listMean (xs : List ℚ) : ℚ := if 0 < xs.length then xs.sum / (xs.length : ℚ) else 0

-- ---------------------------------------------------------------------------
-- Data model (lib/types.ts)
-- ---------------------------------------------------------------------------

structure CausalNode where
  id : String
  description : String
  role : String
deriving DecidableEq, Repr

structure CausalEdge where
  from' : String
  to' : String
  mechanism : String
deriving DecidableEq, Repr

structure NodeMetrics where
  node_id : String
  description : String
  role : String
  in_degree : Nat
  out_degree : Nat
  betweenness : ℚ
  closeness : ℚ
  pagerank : ℚ
  path_relevance : ℚ
  composite_importance : ℚ
deriving DecidableEq, Repr

structure EdgeMetrics where
  source : String
  target : String
  mechanism : String
  edge_betweenness : ℚ
  on_critical_path : Bool
deriving DecidableEq, Repr

structure ProbeTarget where
  target_type : String
  target_id : String
  description : String
  importance : ℚ
  centrality_rank : Nat
  on_critical_path : Bool
  probe_type : String
deriving DecidableEq, Repr

structure ProbeResult where
  probe_type : String
  target_id : String
  target_type : String
  target_importance : ℚ
  target_on_critical_path : Bool
  probe_category : String
  absolute_shift : Option ℚ
  updated_probability : Option ℚ
  shift_direction : String
  success : Bool
  reasoning : String
  probe_text : String
  probe_generated : Bool
  target_centrality_rank : Nat
  raw_response : String
deriving DecidableEq, Repr

structure AggregateMetrics where
  ssr : Option ℚ
  mean_shift_high : ℚ
  mean_shift_low : ℚ
  asymmetry_index : Option ℚ
  mean_shift_negate : ℚ
  mean_shift_strengthen : ℚ
  fnar : Option ℚ
  n_accepted : Nat
  n_fabricated : Nat
  critical_path_premium : Option ℚ
  mean_shift_on_path : ℚ
  mean_shift_off_path : ℚ
  importance_sensitivity_correlation : Option ℚ
deriving DecidableEq, Repr

-- ---------------------------------------------------------------------------
-- Aggregate Metrics Engine, offline batch pass (scripts/prepare-data.ts,
-- `computeMetrics`)
-- ---------------------------------------------------------------------------

def HIGH_TYPES : List String := ["node_negate_high", "node_strengthen", "edge_negate_critical"]

def LOW_TYPES : List String := ["node_negate_low", "edge_negate_peripheral", "irrelevant"]

/-- `results.filter(r => r.success && r.absolute_shift != null)` -/
def successfulOf (results : List ProbeResult) : List ProbeResult :=
  results.filter (fun r => r.success && r.absolute_shift.isSome)

/-- The non-null assertion `r.absolute_shift!` (every successful result has a
`some` shift, so the default is never read). -/
def shiftOf (r : ProbeResult) : ℚ := r.absolute_shift.getD 0

def highShiftsOf (results : List ProbeResult) : List ℚ :=
  ((successfulOf results).filter (fun r => HIGH_TYPES.contains r.probe_type)).map shiftOf

def lowShiftsOf (results : List ProbeResult) : List ℚ :=
  ((successfulOf results).filter (fun r => LOW_TYPES.contains r.probe_type)).map shiftOf

def negateShiftsOf (results : List ProbeResult) : List ℚ :=
  ((successfulOf results).filter (fun r => r.probe_type == "node_negate_high")).map shiftOf

def strengthenShiftsOf (results : List ProbeResult) : List ℚ :=
  ((successfulOf results).filter (fun r => r.probe_type == "node_strengthen")).map shiftOf

/-- `successful.filter(r => r.probe_type === "edge_fabricate" || r.probe_type === "missing_node")` -/
def fabricatedOf (results : List ProbeResult) : List ProbeResult :=
  (successfulOf results).filter
    (fun r => r.probe_type == "edge_fabricate" || r.probe_type == "missing_node")

/-- `fabricated.filter(r => r.absolute_shift! >= 0.05)` -/
def acceptedOf (results : List ProbeResult) : List ProbeResult :=
  (fabricatedOf results).filter (fun r => decide ((5 : ℚ)/100 ≤ shiftOf r))

def onPathOf (results : List ProbeResult) : List ℚ :=
  ((successfulOf results).filter (fun r => r.target_on_critical_path)).map shiftOf

def offPathOf (results : List ProbeResult) : List ℚ :=
  ((successfulOf results).filter (fun r => !r.target_on_critical_path)).map shiftOf

/-- Spearman qualifying pairs: successful results with `target_importance > 0`,
projected to (importance, shift). -/
def pairsOf (results : List ProbeResult) : List (ℚ × ℚ) :=
  ((successfulOf results).filter (fun r => decide (0 < r.target_importance))).map
    (fun r => (r.target_importance, shiftOf r))

/-- Stable ascending insertion used to model `[...arr].sort((a,b) => a-b)`. -/
def insertAsc (x : ℚ) : List ℚ → List ℚ
  | [] => [x]
  | y :: ys => if y ≤ x then y :: insertAsc x ys else x :: y :: ys

def sortAsc (l : List ℚ) : List ℚ := l.foldl (fun acc x => insertAsc x acc) []

/-- `arr.map(v => sorted.indexOf(v) + 1)` — ties get the first occurrence's
position in the sorted order. -/
def rankList (arr : List ℚ) : List Nat :=
  arr.map (fun v => firstIdx v (sortAsc arr) + 1)

/-- `ρ = 1 − 6·Σd²/(n·(n²−1))` over the rank lists of the qualifying pairs. -/
def spearmanOf (results : List ProbeResult) : ℚ :=
  let pairs := pairsOf results
  let impRanks := rankList (pairs.map (·.1))
  let shiftRanks := rankList (pairs.map (·.2))
  let n : ℚ := (pairs.length : ℚ)
  let dSq : ℚ := ((impRanks.zip shiftRanks).map
    (fun p => ((p.1 : ℚ) - (p.2 : ℚ)) ^ 2)).sum
  1 - 6 * dSq / (n * (n * n - 1))

/-- `computeMetrics` from scripts/prepare-data.ts. -/
def computeMetrics (results : List ProbeResult) : AggregateMetrics :=
  let meanHigh := listMean (highShiftsOf results)
  let meanLow := listMean (lowShiftsOf results)
  let meanNeg := listMean (negateShiftsOf results)
  let meanStr := listMean (strengthenShiftsOf results)
  { ssr := if 0 < meanLow then some (meanHigh / meanLow) else none
    mean_shift_high := meanHigh
    mean_shift_low := meanLow
    asymmetry_index := if 0 < meanStr then some (meanNeg / meanStr) else none
    mean_shift_negate := meanNeg
    mean_shift_strengthen := meanStr
    fnar := if 0 < (fabricatedOf results).length then
        some (((acceptedOf results).length : ℚ) / ((fabricatedOf results).length : ℚ))
      else none
    n_accepted := (acceptedOf results).length
    n_fabricated := (fabricatedOf results).length
    critical_path_premium :=
      if 0 < (onPathOf results).length ∧ 0 < (offPathOf results).length then
        some (listMean (onPathOf results) - listMean (offPathOf results))
      else none
    mean_shift_on_path := listMean (onPathOf results)
    mean_shift_off_path := listMean (offPathOf results)
    importance_sensitivity_correlation :=
      if 3 ≤ (pairsOf results).length then some (spearmanOf results) else none }

-- ---------------------------------------------------------------------------
-- Aggregate metrics as computed inline by the live pipeline
-- (`runFullPipeline`, step "Compute aggregate metrics").  The constant sets,
-- filters and guarded means are duplicated in the source; they are duplicated
-- here so that the refinement theorem compares two independent transcriptions.
-- ---------------------------------------------------------------------------

def liveSuccessful (probeResults : List ProbeResult) : List ProbeResult :=
  probeResults.filter (fun r => r.success && r.absolute_shift.isSome)

def liveHighShifts (probeResults : List ProbeResult) : List ℚ :=
  ((liveSuccessful probeResults).filter
    (fun r => (["node_negate_high", "node_strengthen", "edge_negate_critical"] : List String).contains r.probe_type)).map
    (fun r => r.absolute_shift.getD 0)

def liveLowShifts (probeResults : List ProbeResult) : List ℚ :=
  ((liveSuccessful probeResults).filter
    (fun r => (["node_negate_low", "edge_negate_peripheral", "irrelevant"] : List String).contains r.probe_type)).map
    (fun r => r.absolute_shift.getD 0)

def liveNegateShifts (probeResults : List ProbeResult) : List ℚ :=
  ((liveSuccessful probeResults).filter (fun r => r.probe_type == "node_negate_high")).map
    (fun r => r.absolute_shift.getD 0)

def liveStrengthenShifts (probeResults : List ProbeResult) : List ℚ :=
  ((liveSuccessful probeResults).filter (fun r => r.probe_type == "node_strengthen")).map
    (fun r => r.absolute_shift.getD 0)

def liveFabricated (probeResults : List ProbeResult) : List ProbeResult :=
  (liveSuccessful probeResults).filter
    (fun r => r.probe_type == "edge_fabricate" || r.probe_type == "missing_node")

def liveAccepted (probeResults : List ProbeResult) : List ProbeResult :=
  (liveFabricated probeResults).filter (fun r => decide ((5 : ℚ)/100 ≤ r.absolute_shift.getD 0))

def liveOnPath (probeResults : List ProbeResult) : List ℚ :=
  ((liveSuccessful probeResults).filter (fun r => r.target_on_critical_path)).map
    (fun r => r.absolute_shift.getD 0)

def liveOffPath (probeResults : List ProbeResult) : List ℚ :=
  ((liveSuccessful probeResults).filter (fun r => !r.target_on_critical_path)).map
    (fun r => r.absolute_shift.getD 0)

/-- The `aggregate_metrics` object literal returned by `runFullPipeline`.  Its
`importance_sensitivity_correlation` field is the literal `null` (the source
comments it "Skip for live mode"). -/
def pipelineAggregateMetrics (probeResults : List ProbeResult) : AggregateMetrics :=
  let meanHigh := listMean (liveHighShifts probeResults)
  let meanLow := listMean (liveLowShifts probeResults)
  let meanNeg := listMean (liveNegateShifts probeResults)
  let meanStr := listMean (liveStrengthenShifts probeResults)
  { ssr := if 0 < meanLow then some (meanHigh / meanLow) else none
    mean_shift_high := meanHigh
    mean_shift_low := meanLow
    asymmetry_index := if 0 < meanStr then some (meanNeg / meanStr) else none
    mean_shift_negate := meanNeg
    mean_shift_strengthen := meanStr
    fnar := if 0 < (liveFabricated probeResults).length then
        some (((liveAccepted probeResults).length : ℚ) / ((liveFabricated probeResults).length : ℚ))
      else none
    n_accepted := (liveAccepted probeResults).length
    n_fabricated := (liveFabricated probeResults).length
    critical_path_premium :=
      if 0 < (liveOnPath probeResults).length ∧ 0 < (liveOffPath probeResults).length then
        some (listMean (liveOnPath probeResults) - listMean (liveOffPath probeResults))
      else none
    mean_shift_on_path := listMean (liveOnPath probeResults)
    mean_shift_off_path := listMean (liveOffPath probeResults)
    importance_sensitivity_correlation := none }

-- ---------------------------------------------------------------------------
-- Graph Analyzer (`computeNetworkAnalysis`)
-- ---------------------------------------------------------------------------

def nodeIds (nodes : List CausalNode) : List String := nodes.map (·.id)

/-- The adjacency record: `adj[nd.id] = []` for every node, then
`if (adj[e.from]) adj[e.from].push(e.to)` per edge.  A key that is not a node
id is absent, modelled by the empty list. -/
def adjOf (nodes : List CausalNode) (edges : List CausalEdge) (x : String) : List String :=
  if x ∈ nodeIds nodes then (edges.filter (fun e => decide (e.from' = x))).map (·.to') else []

/-- The reverse adjacency: `if (revAdj[e.to]) revAdj[e.to].push(e.from)`. -/
def revAdjOf (nodes : List CausalNode) (edges : List CausalEdge) (x : String) : List String :=
  if x ∈ nodeIds nodes then (edges.filter (fun e => decide (e.to' = x))).map (·.from') else []

def outDegOf (nodes : List CausalNode) (edges : List CausalEdge) (x : String) : Nat :=
  (adjOf nodes edges x).length

def inDegOf (nodes : List CausalNode) (edges : List CausalEdge) (x : String) : Nat :=
  (revAdjOf nodes edges x).length

/-- One frontier expansion round of the source's queue BFS: the queue is FIFO,
so distances are assigned level by level; `dist` keys already assigned are
skipped, duplicates discovered in the same round are recorded once. -/
def bfsGo (adj : String → List String) :
    Nat → List (String × Nat) → List String → Nat → List (String × Nat)
  | 0, dist, _, _ => dist
  | fuel + 1, dist, frontier, depth =>
    match nub (((frontier.map adj).flatten).filter (fun x => (alookup dist x).isNone)) with
    | [] => dist
    | next => bfsGo adj fuel (dist ++ next.map (fun x => (x, depth))) next (depth + 1)

/-- `bfs(start)`: hop-count map from `start` over the directed adjacency.
`nodes.length` rounds suffice: every assigned distance is at most the node
count (at most `n−1` hops through nodes plus one hop to a dangling id). -/
def bfsFrom (nodes : List CausalNode) (edges : List CausalEdge) (start : String) :
    List (String × Nat) :=
  bfsGo (adjOf nodes edges) nodes.length [(start, 0)] [start] 1

/-- `allPairs = nodes.map(nd => ({id: nd.id, dist: bfs(nd.id)}))` -/
def allPairsOf (nodes : List CausalNode) (edges : List CausalEdge) :
    List (String × List (String × Nat)) :=
  nodes.map (fun nd => (nd.id, bfsFrom nodes edges nd.id))

/-- `allPairs.find(p => p.id === s)?.dist[t]` (also the shape of `src.dist[t]`
for `src` drawn from `allPairs`, since ids are unique). -/
def distOf (nodes : List CausalNode) (edges : List CausalEdge) (s t : String) : Option Nat :=
  match alookup (allPairsOf nodes edges) s with
  | some m => alookup m t
  | none => none

/-- The betweenness increment test for intermediate `m` on the pair `(s,t)`:
all three distances defined and `dist[s][m] + dist[m][t] == dist[s][t]`. -/
def onShortestPath (nodes : List CausalNode) (edges : List CausalEdge) (s t m : String) : Bool :=
  match distOf nodes edges s t, distOf nodes edges s m, distOf nodes edges m t with
  | some c, some a, some b => decide (a + b = c)
  | _, _, _ => false

/-- Raw betweenness counter of `m`: the number of ordered pairs `(s,t)` of
distinct node ids with a finite distance for which `m` (distinct from both)
lies on some shortest path. -/
def betweennessRaw (nodes : List CausalNode) (edges : List CausalEdge) (m : String) : Nat :=
  (nodes.map (fun s =>
    (nodes.filter (fun t =>
      decide (¬ s.id = t.id) && (distOf nodes edges s.id t.id).isSome &&
      decide (¬ m = s.id) && decide (¬ m = t.id) &&
      onShortestPath nodes edges s.id t.id m)).length)).sum

/-- `Math.max(...counts, 1)` over the raw betweenness counters. -/
def maxBetOf (nodes : List CausalNode) (edges : List CausalEdge) : Nat :=
  (nodes.map (fun nd => betweennessRaw nodes edges nd.id)).foldr max 1

def betweennessOf (nodes : List CausalNode) (edges : List CausalEdge) (m : String) : ℚ :=
  (betweennessRaw nodes edges m : ℚ) / (maxBetOf nodes edges : ℚ)

/-- `pathsToOutcome = allPairs.filter(p => p.dist[O] !== undefined && p.id !== O)`,
kept as the list of source ids. -/
def pathsToOutcomeOf (nodes : List CausalNode) (edges : List CausalEdge) (outcome : String) :
    List String :=
  (nodes.filter (fun nd =>
    (distOf nodes edges nd.id outcome).isSome && decide (¬ nd.id = outcome))).map (·.id)

/-- Path relevance of `m` to the outcome: fraction of valid sources whose
shortest distance to the outcome decomposes through `m`; the outcome node
itself gets 0, as does everything when no source reaches the outcome. -/
def pathRelevanceOf (nodes : List CausalNode) (edges : List CausalEdge)
    (outcome m : String) : ℚ :=
  if m = outcome then 0
  else
    let srcs := pathsToOutcomeOf nodes edges outcome
    let onPath := (srcs.filter (fun s =>
      decide (¬ s = m) && onShortestPath nodes edges s outcome m)).length
    if 0 < srcs.length then (onPath : ℚ) / (srcs.length : ℚ) else 0

/-- `outDeg[pred] || 1`: mass-split denominator of a predecessor. -/
def prDenOf (nodes : List CausalNode) (edges : List CausalEdge) (pred : String) : ℚ :=
  if outDegOf nodes edges pred = 0 then 1 else (outDegOf nodes edges pred : ℚ)

/-- One PageRank power iteration: `newPr[v] = (1-d)/n + d * Σ pr[pred]/outDeg[pred]`
with damping `d = 0.85`.  `pr[pred]` is always bound for validated graphs
(every predecessor is a node id); the `getD 0` default is never read there. -/
def prStep (nodes : List CausalNode) (edges : List CausalEdge)
    (pr : List (String × ℚ)) : List (String × ℚ) :=
  nodes.map (fun nd => (nd.id,
    (1 - 17/20) / (nodes.length : ℚ) +
      17/20 * (((revAdjOf nodes edges nd.id).map
        (fun pred => (alookup pr pred).getD 0 / prDenOf nodes edges pred)).sum)))

/-- `pr` initialised uniformly at `1/n`, then `k` power iterations. -/
def prIter (nodes : List CausalNode) (edges : List CausalEdge) : Nat → List (String × ℚ)
  | 0 => nodes.map (fun nd => (nd.id, 1 / (nodes.length : ℚ)))
  | k + 1 => prStep nodes edges (prIter nodes edges k)

/-- The PageRank record after the fixed 20 iterations. -/
def pagerankMap (nodes : List CausalNode) (edges : List CausalEdge) : List (String × ℚ) :=
  prIter nodes edges 20

def pagerankOf (nodes : List CausalNode) (edges : List CausalEdge) (x : String) : ℚ :=
  (alookup (pagerankMap nodes edges) x).getD 0

/-- Raw closeness of `x`: over the positive entries of its BFS distance map,
`count / sum` (0 when nothing else is reachable). -/
def closenessRawOf (nodes : List CausalNode) (edges : List CausalEdge) (x : String) : ℚ :=
  let ds : List ℕ := ((bfsFrom nodes edges x).map (·.2)).filter (fun d => decide (0 < d))
  if 0 < ds.length then (ds.length : ℚ) / ((ds.map (fun (d : ℕ) => (d : ℚ))).sum) else 0

/-- `Math.max(...Object.values(closeness), 1)`. -/
def maxClOf (nodes : List CausalNode) (edges : List CausalEdge) : ℚ :=
  (nodes.map (fun nd => closenessRawOf nodes edges nd.id)).foldr max 1

def closenessOf (nodes : List CausalNode) (edges : List CausalEdge) (x : String) : ℚ :=
  closenessRawOf nodes edges x / maxClOf nodes edges

/-- `Math.max(...Object.values(outDeg), 1)`. -/
def maxOutOf (nodes : List CausalNode) (edges : List CausalEdge) : Nat :=
  (nodes.map (fun nd => outDegOf nodes edges nd.id)).foldr max 1

def compositeImportanceOf (nodes : List CausalNode) (edges : List CausalEdge)
    (outcome : String) (x : String) : ℚ :=
  3/10 * betweennessOf nodes edges x +
  1/5 * pagerankOf nodes edges x +
  1/5 * ((outDegOf nodes edges x : ℚ) / (maxOutOf nodes edges : ℚ)) +
  3/10 * pathRelevanceOf nodes edges outcome x

def nodeMetricsOf (nodes : List CausalNode) (edges : List CausalEdge)
    (outcome : String) : List NodeMetrics :=
  nodes.map (fun nd =>
    { node_id := nd.id
      description := nd.description
      role := nd.role
      in_degree := inDegOf nodes edges nd.id
      out_degree := outDegOf nodes edges nd.id
      betweenness := betweennessOf nodes edges nd.id
      closeness := closenessOf nodes edges nd.id
      pagerank := pagerankOf nodes edges nd.id
      path_relevance := pathRelevanceOf nodes edges outcome nd.id
      composite_importance := compositeImportanceOf nodes edges outcome nd.id })

/-- Critical-path test for an edge:
`srcDist[O] !== undefined && tgtDist[O] !== undefined && srcDist[O] === 1 + tgtDist[O]`. -/
def onCriticalOf (nodes : List CausalNode) (edges : List CausalEdge)
    (outcome : String) (e : CausalEdge) : Bool :=
  match distOf nodes edges e.from' outcome, distOf nodes edges e.to' outcome with
  | some a, some b => decide (a = 1 + b)
  | _, _ => false

def edgeMetricsOf (nodes : List CausalNode) (edges : List CausalEdge)
    (outcome : String) : List EdgeMetrics :=
  edges.map (fun e =>
    { source := e.from'
      target := e.to'
      mechanism := e.mechanism
      edge_betweenness := 1/10
      on_critical_path := onCriticalOf nodes edges outcome e })

/-- Stable descending insertion modelling the stable JS
`sort((a,b) => b.composite_importance - a.composite_importance)`: an element
is placed after every already-placed element of greater or equal importance. -/
def insertByImportance (x : NodeMetrics) : List NodeMetrics → List NodeMetrics
  | [] => [x]
  | y :: ys =>
    if x.composite_importance ≤ y.composite_importance then y :: insertByImportance x ys
    else x :: y :: ys

/-- `[...nodeMetrics].filter(nm => nm.role !== "outcome").sort(descending importance)` -/
def sortedNodesOf (nodes : List CausalNode) (edges : List CausalEdge)
    (outcome : String) : List NodeMetrics :=
  ((nodeMetricsOf nodes edges outcome).filter (fun nm => decide (¬ nm.role = "outcome"))).foldl
    (fun acc x => insertByImportance x acc) []

def mkNodeTarget (nm : NodeMetrics) (rank : Nat) (ptype : String) (ocp : Bool) : ProbeTarget :=
  { target_type := "node"
    target_id := nm.node_id
    description := nm.description
    importance := nm.composite_importance
    centrality_rank := rank
    on_critical_path := ocp
    probe_type := ptype }

def nth? {α : Type} : List α → Nat → Option α
  | [], _ => none
  | x :: _, 0 => some x
  | _ :: xs, n + 1 => nth? xs n

/-- The two `node_negate_high` pushes: `if (sortedNodes.length > 0)` pushes
rank 1, `if (sortedNodes.length > 1)` pushes rank 2. -/
def highProbesOf (nodes : List CausalNode) (edges : List CausalEdge)
    (outcome : String) : List ProbeTarget :=
  match sortedNodesOf nodes edges outcome with
  | [] => []
  | [nm1] =>
    [mkNodeTarget nm1 1 "node_negate_high"
      (decide (0 < pathRelevanceOf nodes edges outcome nm1.node_id))]
  | nm1 :: nm2 :: _ =>
    [mkNodeTarget nm1 1 "node_negate_high"
      (decide (0 < pathRelevanceOf nodes edges outcome nm1.node_id)),
     mkNodeTarget nm2 2 "node_negate_high"
      (decide (0 < pathRelevanceOf nodes edges outcome nm2.node_id))]

/-- The `node_negate_medium` push at `midIdx = floor(count/2)`. -/
def mediumProbesOf (nodes : List CausalNode) (edges : List CausalEdge)
    (outcome : String) : List ProbeTarget :=
  let sorted := sortedNodesOf nodes edges outcome
  match nth? sorted (sorted.length / 2) with
  | some nm =>
    [mkNodeTarget nm (sorted.length / 2 + 1) "node_negate_medium"
      (decide (0 < pathRelevanceOf nodes edges outcome nm.node_id))]
  | none => []

/-- The `node_negate_low` push: only with at least 3 ranked nodes, targeting
the last rank, with `on_critical_path` hard-coded to `false`. -/
def lowProbesOf (nodes : List CausalNode) (edges : List CausalEdge)
    (outcome : String) : List ProbeTarget :=
  let sorted := sortedNodesOf nodes edges outcome
  if 2 < sorted.length then
    match nth? sorted (sorted.length - 1) with
    | some nm =>
      [mkNodeTarget nm (sorted.length - 1 + 1) "node_negate_low" false]
    | none => []
  else []

/-- The `node_strengthen` loop `for (i = 0; i < Math.min(2, length); i++)`:
ranks 1 and 2 again, with the strengthen probe semantics. -/
def strengthenProbesOf (nodes : List CausalNode) (edges : List CausalEdge)
    (outcome : String) : List ProbeTarget :=
  match sortedNodesOf nodes edges outcome with
  | [] => []
  | [nm1] =>
    [mkNodeTarget nm1 1 "node_strengthen"
      (decide (0 < pathRelevanceOf nodes edges outcome nm1.node_id))]
  | nm1 :: nm2 :: _ =>
    [mkNodeTarget nm1 1 "node_strengthen"
      (decide (0 < pathRelevanceOf nodes edges outcome nm1.node_id)),
     mkNodeTarget nm2 2 "node_strengthen"
      (decide (0 < pathRelevanceOf nodes edges outcome nm2.node_id))]

def mkCritTarget (em : EdgeMetrics) (rank : Nat) : ProbeTarget :=
  { target_type := "edge"
    target_id := em.source ++ "->" ++ em.target
    description := em.mechanism
    importance := em.edge_betweenness
    centrality_rank := rank
    on_critical_path := true
    probe_type := "edge_negate_critical" }

/-- The loop `for (i = 0; i < Math.min(2, critEdges.length); i++)`: up to two
`edge_negate_critical` pushes over the critical edges in edge order. -/
def criticalEdgeProbesOf (nodes : List CausalNode) (edges : List CausalEdge)
    (outcome : String) : List ProbeTarget :=
  match (edgeMetricsOf nodes edges outcome).filter (·.on_critical_path) with
  | [] => []
  | [em1] => [mkCritTarget em1 1]
  | em1 :: em2 :: _ => [mkCritTarget em1 1, mkCritTarget em2 2]

/-- The single `edge_negate_peripheral` push over the first non-critical edge. -/
def peripheralEdgeProbesOf (nodes : List CausalNode) (edges : List CausalEdge)
    (outcome : String) : List ProbeTarget :=
  match (edgeMetricsOf nodes edges outcome).filter (fun em => !em.on_critical_path) with
  | [] => []
  | em :: _ =>
    [{ target_type := "edge"
       target_id := em.source ++ "->" ++ em.target
       description := em.mechanism
       importance := em.edge_betweenness
       centrality_rank := (edgeMetricsOf nodes edges outcome).length
       on_critical_path := false
       probe_type := "edge_negate_peripheral" }]

def structuralProbes : List ProbeTarget :=
  [{ target_type := "structural"
     target_id := "missing_node_1"
     description := "A plausible factor not in the current network"
     importance := 0
     centrality_rank := 0
     on_critical_path := false
     probe_type := "missing_node" },
   { target_type := "structural"
     target_id := "irrelevant_1"
     description := "Topically related but causally irrelevant information"
     importance := 0
     centrality_rank := 0
     on_critical_path := false
     probe_type := "irrelevant" }]

/-- The probe target slate, in push order. -/
def probeTargetsOf (nodes : List CausalNode) (edges : List CausalEdge)
    (outcome : String) : List ProbeTarget :=
  highProbesOf nodes edges outcome ++ mediumProbesOf nodes edges outcome ++
  lowProbesOf nodes edges outcome ++ strengthenProbesOf nodes edges outcome ++
  criticalEdgeProbesOf nodes edges outcome ++ peripheralEdgeProbesOf nodes edges outcome ++
  structuralProbes

/-- `n > 1 ? edges.length / (n*(n-1)) : 0`. -/
def densityOf (nodes : List CausalNode) (edges : List CausalEdge) : ℚ :=
  if 1 < nodes.length then
    (edges.length : ℚ) / ((nodes.length : ℚ) * ((nodes.length : ℚ) - 1))
  else 0

/-- `Math.round(density * 10000) / 10000` (density is non-negative, so
`Math.round` is `⌊x + 1/2⌋`). -/
def roundDensity (q : ℚ) : ℚ := ((⌊q * 10000 + 1/2⌋ : ℚ)) / 10000

structure DfsSt where
  visiting : List String
  visited : List String
deriving DecidableEq, Repr

mutual

/-- The three-colour DFS `dfs(node)` of the cycle check: `none` models the
`false` return (a back-edge into the gray set).  The fuel bounds the recursion
depth; it never runs out because each nested visit adds a fresh id to
`visiting`, so the analyzer calls it with fuel exceeding any possible depth. -/
def dfsVisit (adj : String → List String) : Nat → String → DfsSt → Option DfsSt
  | 0, _, _ => none
  | fuel + 1, node, st =>
    if node ∈ st.visiting then none
    else if node ∈ st.visited then some st
    else
      match dfsChildren adj fuel (adj node) ⟨node :: st.visiting, st.visited⟩ with
      | none => none
      | some st' => some ⟨st'.visiting.erase node, node :: st'.visited⟩

/-- The `for (const next of adj[node])` loop body: visit children in order,
propagating the first cycle report. -/
def dfsChildren (adj : String → List String) : Nat → List String → DfsSt → Option DfsSt
  | _, [], st => some st
  | fuel, c :: cs, st =>
    match dfsVisit adj fuel c st with
    | none => none
    | some st' => dfsChildren adj fuel cs st'

end

/-- The outer `for (const nd of nodes)` loop of the DAG check. -/
def dagLoop (adj : String → List String) (fuel : Nat) : List String → DfsSt → Bool
  | [], _ => true
  | x :: rest, st =>
    if x ∈ st.visited then dagLoop adj fuel rest st
    else
      match dfsVisit adj fuel x st with
      | none => false
      | some st' => dagLoop adj fuel rest st'

def isDagOf (nodes : List CausalNode) (edges : List CausalEdge) : Bool :=
  dagLoop (adjOf nodes edges) (nodes.length + edges.length + 2) (nodeIds nodes) ⟨[], []⟩

structure NetworkStats where
  n_nodes : Nat
  n_edges : Nat
  density : ℚ
  is_dag : Bool
  outcome_node : String
deriving DecidableEq, Repr

structure NetworkAnalysis where
  nodeMetrics : List NodeMetrics
  edgeMetrics : List EdgeMetrics
  probeTargets : List ProbeTarget
  stats : NetworkStats
deriving DecidableEq, Repr

/-- The analysis result once the outcome node has been resolved. -/
def analysisCore (nodes : List CausalNode) (edges : List CausalEdge)
    (outcome : String) : NetworkAnalysis :=
  { nodeMetrics := nodeMetricsOf nodes edges outcome
    edgeMetrics := edgeMetricsOf nodes edges outcome
    probeTargets := probeTargetsOf nodes edges outcome
    stats :=
      { n_nodes := nodes.length
        n_edges := edges.length
        density := roundDensity (densityOf nodes edges)
        is_dag := isDagOf nodes edges
        outcome_node := outcome } }

/-- `computeNetworkAnalysis`.  The outcome node is
`nodes.find(nd => nd.role === "outcome")?.id ?? nodes[nodes.length - 1].id`;
on an empty node list the fallback dereferences `undefined.id` and throws a
`TypeError`, modelled as `none`. -/
def computeNetworkAnalysis (nodes : List CausalNode) (edges : List CausalEdge) :
    Option NetworkAnalysis :=
  match nodes.find? (fun nd => decide (nd.role = "outcome")) with
  | some nd => some (analysisCore nodes edges nd.id)
  | none =>
    match nodes.getLast? with
    | some last => some (analysisCore nodes edges last.id)
    | none => none

end BSE

namespace BSE

-- ---------------------------------------------------------------------------
-- Concrete probe-result fixtures
-- ---------------------------------------------------------------------------

/-- A recorded probe result with the fields the metrics engines read. -/
def mkProbeResult (ptype : String) (imp : ℚ) (shift : Option ℚ) (succ : Bool)
    (ocp : Bool) : ProbeResult :=
  { probe_type := ptype
    target_id := ""
    target_type := "node"
    target_importance := imp
    target_on_critical_path := ocp
    probe_category := "node"
    absolute_shift := shift
    updated_probability := shift
    shift_direction := "unchanged"
    success := succ
    reasoning := ""
    probe_text := ""
    probe_generated := true
    target_centrality_rank := 0
    raw_response := "" }

/-- Three successful, tie-free, rank-concordant results: importances
0.1/0.2/0.3 paired with shifts 0.05/0.10/0.20. -/
def concordantResults : List ProbeResult :=
  [mkProbeResult "node_negate_high" (1/10) (some (5/100)) true true,
   mkProbeResult "node_negate_high" (2/10) (some (1/10)) true true,
   mkProbeResult "node_negate_high" (3/10) (some (2/10)) true false]

/-- A single successful high-type on-path result: every group that the four
guarded ratios divide by is empty, so all four metrics must be null. -/
def lonelyHighResult : List ProbeResult :=
  [mkProbeResult "node_negate_high" (1/2) (some (1/10)) true true]

/-- A mixed slate on which all four guarded metrics are defined. -/
def mixedResults : List ProbeResult :=
  [mkProbeResult "node_negate_high" (1/2) (some (2/10)) true true,
   mkProbeResult "node_strengthen" (1/2) (some (3/10)) true true,
   mkProbeResult "node_negate_low" (1/10) (some (1/10)) true false,
   mkProbeResult "missing_node" 0 (some (6/100)) true false]

end BSE

namespace BSE

-- ---------------------------------------------------------------------------
-- Concrete graph fixtures
-- ---------------------------------------------------------------------------

/-- A single factor node, no edges. -/
def singleNode : List CausalNode := [⟨"a", "a", "factor"⟩]

/-- Two factor nodes, none marked `outcome`: the fallback outcome is the last
node `b`. -/
def twoFactors : List CausalNode := [⟨"a", "a", "factor"⟩, ⟨"b", "b", "factor"⟩]

/-- A directed 3-cycle `a→b→c→a` (no marked outcome; fallback outcome `c`). -/
def cycleNodes : List CausalNode :=
  [⟨"a", "a", "factor"⟩, ⟨"b", "b", "factor"⟩, ⟨"c", "c", "factor"⟩]

def cycleEdges : List CausalEdge := [⟨"a", "b", "m1"⟩, ⟨"b", "c", "m2"⟩, ⟨"c", "a", "m3"⟩]

/-- The chain `A→B→C` with `C` the outcome (spec §8's critical-path scenario). -/
def chainNodes : List CausalNode :=
  [⟨"A", "A", "factor"⟩, ⟨"B", "B", "factor"⟩, ⟨"C", "C", "outcome"⟩]

def chainEdges : List CausalEdge := [⟨"A", "B", "m1"⟩, ⟨"B", "C", "m2"⟩]

/-- A diamond `s→a→t→out`, `s→b→t` with both `out` and `s` marked `outcome`:
the resolved outcome is `out` (first match), `s` is excluded from the ranking
by its role, and the lowest-ranked remaining node `b` has positive path
relevance. -/
def diamondNodes : List CausalNode :=
  [⟨"out", "out", "outcome"⟩, ⟨"s", "s", "outcome"⟩, ⟨"a", "a", "factor"⟩,
   ⟨"b", "b", "factor"⟩, ⟨"t", "t", "factor"⟩]

def diamondEdges : List CausalEdge :=
  [⟨"s", "a", "m1"⟩, ⟨"s", "b", "m2"⟩, ⟨"a", "t", "m3"⟩, ⟨"b", "t", "m4"⟩, ⟨"t", "out", "m5"⟩]

/-- An outcome node followed by three factors, no edges: the ranked list is
the three factors in input order (all tied), so a `node_negate_low` probe is
emitted for the last of them. -/
def fourNodes : List CausalNode :=
  [⟨"o", "o", "outcome"⟩, ⟨"x", "x", "factor"⟩, ⟨"y", "y", "factor"⟩, ⟨"z", "z", "factor"⟩]

end BSE

namespace BSE

-- ---------------------------------------------------------------------------
-- Claim theorems: aggregate metrics engine
-- ---------------------------------------------------------------------------

/-- Claim C1, counterexample.  The claim says the live pipeline's inline
aggregate metrics equal `computeMetrics` field-for-field *including*
`importance_sensitivity_correlation`; on three successful rank-concordant
results the batch pass computes Spearman `1` while the live pipeline emits
`null`, so the two outputs differ. -/
theorem C1_counterexample_correlation_field :
    (pipelineAggregateMetrics concordantResults).importance_sensitivity_correlation = none ∧
    (computeMetrics concordantResults).importance_sensitivity_correlation = some 1 ∧
    pipelineAggregateMetrics concordantResults ≠ computeMetrics concordantResults := by
  refine ⟨rfl, ?_, ?_⟩
  · norm_num [computeMetrics, concordantResults, mkProbeResult, pairsOf, successfulOf, shiftOf,
      spearmanOf, rankList, sortAsc, insertAsc, firstIdx]
  · intro h
    have hc := congrArg AggregateMetrics.importance_sensitivity_correlation h
    rw [show (pipelineAggregateMetrics concordantResults).importance_sensitivity_correlation
        = none from rfl] at hc
    rw [show (computeMetrics concordantResults).importance_sensitivity_correlation
        = some (spearmanOf concordantResults) from by
      norm_num [computeMetrics, pairsOf, successfulOf, concordantResults, mkProbeResult]] at hc
    exact Option.noConfusion hc

/-- Claim C1, amended.  For every probe-result list the live pipeline's inline
aggregate metrics equal `computeMetrics` on every field except
`importance_sensitivity_correlation`, which the live pipeline sets to `null`
unconditionally. -/
theorem C1_live_equals_batch_except_correlation (results : List ProbeResult) :
    pipelineAggregateMetrics results =
      { computeMetrics results with importance_sensitivity_correlation := none } := rfl

/-- Claim C8.  SSR is null exactly when `mean_shift_low` is not positive, the
asymmetry index exactly when `mean_shift_strengthen` is not positive, FNAR
exactly when the fabricated set is empty, and the critical-path premium
exactly when the on-path or off-path successful set is empty; a lone
successful high-type result makes all four null, and a mixed slate makes all
four defined. -/
theorem C8_null_exactly_on_empty_groups :
    (∀ results : List ProbeResult,
      ((computeMetrics results).ssr = none ↔ ¬ 0 < (computeMetrics results).mean_shift_low) ∧
      ((computeMetrics results).asymmetry_index = none ↔
        ¬ 0 < (computeMetrics results).mean_shift_strengthen) ∧
      ((computeMetrics results).fnar = none ↔ fabricatedOf results = []) ∧
      ((computeMetrics results).critical_path_premium = none ↔
        (onPathOf results = [] ∨ offPathOf results = []))) ∧
    ((computeMetrics lonelyHighResult).ssr = none ∧
     (computeMetrics lonelyHighResult).asymmetry_index = none ∧
     (computeMetrics lonelyHighResult).fnar = none ∧
     (computeMetrics lonelyHighResult).critical_path_premium = none) ∧
    ((computeMetrics mixedResults).ssr.isSome ∧
     (computeMetrics mixedResults).asymmetry_index.isSome ∧
     (computeMetrics mixedResults).fnar.isSome ∧
     (computeMetrics mixedResults).critical_path_premium.isSome) := by
  refine ⟨fun results => ⟨?_, ?_, ?_, ?_⟩, ?_, ?_⟩
  · simp only [computeMetrics]
    split_ifs with h <;> simp [h]
  · simp only [computeMetrics]
    split_ifs with h <;> simp [h]
  · simp only [computeMetrics]
    split_ifs with h
    · simp only [List.length_pos] at h
      simp [h]
    · simp only [not_lt, Nat.le_zero, List.length_eq_zero] at h
      simp [h]
  · simp only [computeMetrics]
    split_ifs with h
    · have h1 := List.length_pos.mp h.1
      have h2 := List.length_pos.mp h.2
      simp [h1, h2]
    · rw [not_and_or] at h
      simp only [not_lt, Nat.le_zero, List.length_eq_zero] at h
      simp [h]
  · simp [computeMetrics, lonelyHighResult, mkProbeResult, listMean,
      lowShiftsOf, highShiftsOf, negateShiftsOf, strengthenShiftsOf, fabricatedOf, acceptedOf,
      onPathOf, offPathOf, successfulOf, shiftOf, HIGH_TYPES, LOW_TYPES]
  · simp [computeMetrics, mixedResults, mkProbeResult, listMean,
      lowShiftsOf, highShiftsOf, negateShiftsOf, strengthenShiftsOf, fabricatedOf, acceptedOf,
      onPathOf, offPathOf, successfulOf, shiftOf, HIGH_TYPES, LOW_TYPES]

/-- Claim C9.  The importance–sensitivity correlation is null exactly when
fewer than 3 successful results have positive `target_importance`; otherwise
it is the Spearman value `1 − 6·Σd²/(n·(n²−1))` over first-occurrence ranks,
and the rank-concordant fixture 0.1/0.2/0.3 vs 0.05/0.10/0.20 yields exactly 1. -/
theorem C9_spearman_nullity_and_value :
    (∀ results : List ProbeResult,
      ((computeMetrics results).importance_sensitivity_correlation = none ↔
        (pairsOf results).length < 3) ∧
      (3 ≤ (pairsOf results).length →
        (computeMetrics results).importance_sensitivity_correlation =
          some (spearmanOf results))) ∧
    (computeMetrics concordantResults).importance_sensitivity_correlation = some 1 := by
  refine ⟨fun results => ⟨?_, ?_⟩, ?_⟩
  · simp only [computeMetrics]
    split_ifs with h
    · simp; omega
    · simp; omega
  · intro h
    simp only [computeMetrics]
    rw [if_pos h]
  · norm_num [computeMetrics, concordantResults, mkProbeResult, pairsOf, successfulOf, shiftOf,
      spearmanOf, rankList, sortAsc, insertAsc, firstIdx]

/-- Claim C9, witness: the fixture has 3 qualifying pairs and the theorem's
formula branch applies to it. -/
theorem C9_spearman_witness :
    3 ≤ (pairsOf concordantResults).length ∧
    (computeMetrics concordantResults).importance_sensitivity_correlation =
      some (spearmanOf concordantResults) :=
  ⟨by norm_num [pairsOf, successfulOf, concordantResults, mkProbeResult],
   (C9_spearman_nullity_and_value.1 concordantResults).2
     (by norm_num [pairsOf, successfulOf, concordantResults, mkProbeResult])⟩

end BSE

namespace BSE

-- ---------------------------------------------------------------------------
-- Claim theorems: graph analyzer
-- ---------------------------------------------------------------------------

/-- Claim C3.  The analyzer is expected to be total on every structurally
valid input including the empty graph; the source dereferences
`nodes[nodes.length - 1].id` when no node is marked `outcome`, which throws a
`TypeError` on a zero-node graph (modelled as `none`), while every non-empty
graph is analysed. -/
theorem C3_empty_graph_throws :
    computeNetworkAnalysis ([] : List CausalNode) ([] : List CausalEdge) = none ∧
    (∀ (nodes : List CausalNode) (edges : List CausalEdge), nodes ≠ [] →
      (computeNetworkAnalysis nodes edges).isSome) := by
  refine ⟨rfl, fun nodes edges hne => ?_⟩
  unfold computeNetworkAnalysis
  cases hfind : nodes.find? (fun nd => decide (nd.role = "outcome")) with
  | some nd => simp
  | none =>
    cases hlast : nodes.getLast? with
    | some last => simp
    | none => exact absurd (List.getLast?_eq_none_iff.mp hlast) hne

/-- Claim C3, witness: the single-node graph is non-empty and is analysed. -/
theorem C3_empty_graph_throws_witness :
    singleNode ≠ [] ∧ (computeNetworkAnalysis singleNode []).isSome :=
  ⟨by simp [singleNode], C3_empty_graph_throws.2 singleNode [] (by simp [singleNode])⟩

theorem mem_insertByImportance {x y : NodeMetrics} {l : List NodeMetrics} :
    x ∈ insertByImportance y l ↔ x = y ∨ x ∈ l := by
  induction l with
  | nil => simp [insertByImportance]
  | cons z zs ih =>
    unfold insertByImportance
    split_ifs with h
    · constructor
      · intro hx
        rcases List.mem_cons.mp hx with hz | hins
        · exact Or.inr (List.mem_cons.mpr (Or.inl hz))
        · rcases ih.mp hins with h1 | h2
          · exact Or.inl h1
          · exact Or.inr (List.mem_cons.mpr (Or.inr h2))
      · intro hx
        rcases hx with h1 | h2
        · exact List.mem_cons.mpr (Or.inr (ih.mpr (Or.inl h1)))
        · rcases List.mem_cons.mp h2 with hz | hzs
          · exact List.mem_cons.mpr (Or.inl hz)
          · exact List.mem_cons.mpr (Or.inr (ih.mpr (Or.inr hzs)))
    · exact List.mem_cons

theorem mem_sortFold {x : NodeMetrics} {l acc : List NodeMetrics} :
    x ∈ l.foldl (fun acc y => insertByImportance y acc) acc ↔ x ∈ acc ∨ x ∈ l := by
  induction l generalizing acc with
  | nil => simp
  | cons z zs ih =>
    simp only [List.foldl_cons, ih, mem_insertByImportance, List.mem_cons]
    tauto

/-- Claim C4, amended.  The importance-ranked list excludes exactly the nodes
whose role is `outcome`; under the fallback (no node marked `outcome`) the
chosen outcome node keeps role `factor` and is not excluded. -/
theorem C4_ranking_excludes_by_role (nodes : List CausalNode) (edges : List CausalEdge)
    (outcome : String) : ∀ nm ∈ sortedNodesOf nodes edges outcome, nm.role ≠ "outcome" := by
  intro nm hnm
  rw [sortedNodesOf, mem_sortFold] at hnm
  rcases hnm with h | h
  · simp at h
  · rw [List.mem_filter] at h
    simpa using h.2

theorem twoFactors_sorted : sortedNodesOf twoFactors [] "b" =
    [{ node_id := "a", description := "a", role := "factor", in_degree := 0, out_degree := 0,
       betweenness := 0, closeness := 0, pagerank := 3/40, path_relevance := 0,
       composite_importance := 3/200 },
     { node_id := "b", description := "b", role := "factor", in_degree := 0, out_degree := 0,
       betweenness := 0, closeness := 0, pagerank := 3/40, path_relevance := 0,
       composite_importance := 3/200 }] := by
  simp [sortedNodesOf, nodeMetricsOf, twoFactors, betweennessOf, betweennessRaw, maxBetOf,
    onShortestPath, distOf, allPairsOf, bfsFrom, bfsGo, nub, nubAux, adjOf, revAdjOf, nodeIds,
    alookup, inDegOf, outDegOf, closenessOf, closenessRawOf, maxClOf, pathRelevanceOf,
    pathsToOutcomeOf, maxOutOf, compositeImportanceOf, pagerankOf, pagerankMap, prIter,
    prStep, prDenOf, insertByImportance]
  norm_num

/-- Claim C4, counterexample.  With two factor nodes and no marked outcome the
fallback outcome is `b` (last in input order), yet `b` appears in the ranked
list and receives a node probe target — the ranked list does not exclude the
fallback outcome node. -/
theorem C4_counterexample_fallback_ranked :
    ∃ A, computeNetworkAnalysis twoFactors [] = some A ∧
      A.stats.outcome_node = "b" ∧
      "b" ∈ (sortedNodesOf twoFactors [] "b").map (·.node_id) ∧
      ∃ t ∈ A.probeTargets, t.target_id = "b" ∧ t.target_type = "node" := by
  refine ⟨analysisCore twoFactors [] "b", ?_, rfl, ?_, ?_⟩
  · simp [computeNetworkAnalysis, twoFactors]
  · rw [twoFactors_sorted]; simp
  · refine ⟨mkNodeTarget
      { node_id := "b", description := "b", role := "factor", in_degree := 0, out_degree := 0,
        betweenness := 0, closeness := 0, pagerank := 3/40, path_relevance := 0,
        composite_importance := 3/200 } 2 "node_negate_high" false, ?_, rfl, rfl⟩
    show _ ∈ probeTargetsOf twoFactors [] "b"
    rw [probeTargetsOf]
    apply List.mem_append_left
    apply List.mem_append_left
    apply List.mem_append_left
    apply List.mem_append_left
    apply List.mem_append_left
    apply List.mem_append_left
    rw [highProbesOf, twoFactors_sorted]
    simp [pathRelevanceOf, pathsToOutcomeOf, twoFactors, distOf, allPairsOf, bfsFrom, bfsGo,
      nub, nubAux, adjOf, nodeIds, alookup]

/-- Claim C4, witness: on the two-factor graph the ranked list's head has a
non-outcome role, by the amended theorem. -/
theorem C4_ranking_excludes_by_role_witness :
    ({ node_id := "a", description := "a", role := "factor", in_degree := 0, out_degree := 0,
       betweenness := 0, closeness := 0, pagerank := 3/40, path_relevance := 0,
       composite_importance := 3/200 } : NodeMetrics) ∈ sortedNodesOf twoFactors [] "b" ∧
    ({ node_id := "a", description := "a", role := "factor", in_degree := 0, out_degree := 0,
       betweenness := 0, closeness := 0, pagerank := 3/40, path_relevance := 0,
       composite_importance := 3/200 } : NodeMetrics).role ≠ "outcome" :=
  ⟨by rw [twoFactors_sorted]; simp,
   C4_ranking_excludes_by_role twoFactors [] "b" _ (by rw [twoFactors_sorted]; simp)⟩

end BSE

namespace BSE

/-- Claim C7.  An edge's `on_critical_path` flag is true exactly when both BFS
hop counts to the outcome are finite and `dist[u][O] == 1 + dist[v][O]`; on
the chain `A→B→C(outcome)` both edges are marked true. -/
theorem C7_critical_path_rule :
    (∀ (nodes : List CausalNode) (edges : List CausalEdge) (A : NetworkAnalysis),
      computeNetworkAnalysis nodes edges = some A →
      ∀ em ∈ A.edgeMetrics,
        (em.on_critical_path = true ↔
          ∃ a b, distOf nodes edges em.source A.stats.outcome_node = some a ∧
            distOf nodes edges em.target A.stats.outcome_node = some b ∧ a = 1 + b)) ∧
    (∃ A, computeNetworkAnalysis chainNodes chainEdges = some A ∧
      A.edgeMetrics.map (·.on_critical_path) = [true, true]) := by
  constructor
  · intro nodes edges A hA em hem
    have hcore : ∃ o, A = analysisCore nodes edges o := by
      unfold computeNetworkAnalysis at hA
      cases hfind : nodes.find? (fun nd => decide (nd.role = "outcome")) with
      | some nd =>
        rw [hfind] at hA
        exact ⟨nd.id, (Option.some_inj.mp hA).symm⟩
      | none =>
        rw [hfind] at hA
        cases hlast : nodes.getLast? with
        | some last =>
          rw [hlast] at hA
          exact ⟨last.id, (Option.some_inj.mp hA).symm⟩
        | none => rw [hlast] at hA; exact absurd hA (by simp)
    obtain ⟨o, rfl⟩ := hcore
    have hout : (analysisCore nodes edges o).stats.outcome_node = o := rfl
    rw [hout]
    have hem' : em ∈ edgeMetricsOf nodes edges o := hem
    rw [edgeMetricsOf, List.mem_map] at hem'
    obtain ⟨e, _, rfl⟩ := hem'
    show onCriticalOf nodes edges o e = true ↔ _
    unfold onCriticalOf
    cases h1 : distOf nodes edges e.from' o with
    | none => simp [h1]
    | some a =>
      cases h2 : distOf nodes edges e.to' o with
      | none => simp [h1, h2]
      | some b =>
        simp only [decide_eq_true_eq]
        constructor
        · intro hab
          exact ⟨a, b, rfl, rfl, hab⟩
        · rintro ⟨a', b', ha', hb', hab⟩
          cases ha'
          cases hb'
          exact hab
  · refine ⟨analysisCore chainNodes chainEdges "C", ?_, ?_⟩
    · simp [computeNetworkAnalysis, chainNodes]
    · simp [analysisCore, edgeMetricsOf, onCriticalOf, distOf, allPairsOf, bfsFrom, bfsGo,
        nub, nubAux, adjOf, nodeIds, alookup, chainNodes, chainEdges]

/-- Claim C7, witness: the rule instantiated on the chain's first edge. -/
theorem C7_critical_path_rule_witness :
    (computeNetworkAnalysis chainNodes chainEdges =
      some (analysisCore chainNodes chainEdges "C") ∧
     ({ source := "A", target := "B", mechanism := "m1", edge_betweenness := 1/10,
        on_critical_path := true } : EdgeMetrics) ∈
        (analysisCore chainNodes chainEdges "C").edgeMetrics) ∧
    (({ source := "A", target := "B", mechanism := "m1", edge_betweenness := 1/10,
        on_critical_path := true } : EdgeMetrics).on_critical_path = true ↔
      ∃ a b, distOf chainNodes chainEdges "A"
          (analysisCore chainNodes chainEdges "C").stats.outcome_node = some a ∧
        distOf chainNodes chainEdges "B"
          (analysisCore chainNodes chainEdges "C").stats.outcome_node = some b ∧ a = 1 + b) :=
  ⟨⟨by simp [computeNetworkAnalysis, chainNodes],
    by simp [analysisCore, edgeMetricsOf, onCriticalOf, distOf, allPairsOf, bfsFrom, bfsGo,
        nub, nubAux, adjOf, nodeIds, alookup, chainNodes, chainEdges]⟩,
   C7_critical_path_rule.1 chainNodes chainEdges (analysisCore chainNodes chainEdges "C")
     (by simp [computeNetworkAnalysis, chainNodes]) _
     (by simp [analysisCore, edgeMetricsOf, onCriticalOf, distOf, allPairsOf, bfsFrom, bfsGo,
        nub, nubAux, adjOf, nodeIds, alookup, chainNodes, chainEdges])⟩

end BSE

namespace BSE

set_option maxHeartbeats 2000000 in
theorem diamond_sorted : sortedNodesOf diamondNodes diamondEdges "out" =
    [{ node_id := "t", description := "t", role := "factor", in_degree := 2, out_degree := 1,
       betweenness := 1, closeness := 1, pagerank := 4107/40000, path_relevance := 3/4,
       composite_importance := 129107/200000 },
     { node_id := "a", description := "a", role := "factor", in_degree := 1, out_degree := 1,
       betweenness := 2/3, closeness := 2/3, pagerank := 171/4000, path_relevance := 1/4,
       composite_importance := 7671/20000 },
     { node_id := "b", description := "b", role := "factor", in_degree := 1, out_degree := 1,
       betweenness := 2/3, closeness := 2/3, pagerank := 171/4000, path_relevance := 1/4,
       composite_importance := 7671/20000 }] := by
  simp [sortedNodesOf, nodeMetricsOf, diamondNodes, diamondEdges, betweennessOf, betweennessRaw,
    maxBetOf, onShortestPath, distOf, allPairsOf, bfsFrom, bfsGo, nub, nubAux, adjOf, revAdjOf,
    nodeIds, alookup, inDegOf, outDegOf, closenessOf, closenessRawOf, maxClOf, pathRelevanceOf,
    pathsToOutcomeOf, maxOutOf, compositeImportanceOf, pagerankOf, pagerankMap, prIter,
    prStep, prDenOf, insertByImportance]
  norm_num

/-- Claim C10.  Every `node_negate_low` probe target carries
`on_critical_path := false` literally, while `node_negate_high` and
`node_negate_medium` targets carry `path_relevance > 0`; on the diamond
fixture the low target is `b`, whose path relevance is positive, and its flag
is still false. -/
theorem C10_negate_low_flag_hardcoded :
    (∀ (nodes : List CausalNode) (edges : List CausalEdge) (outcome : String),
      ∀ t ∈ probeTargetsOf nodes edges outcome,
        (t.probe_type = "node_negate_low" → t.on_critical_path = false) ∧
        ((t.probe_type = "node_negate_high" ∨ t.probe_type = "node_negate_medium") →
          t.on_critical_path =
            decide (0 < pathRelevanceOf nodes edges outcome t.target_id))) ∧
    (∃ A, computeNetworkAnalysis diamondNodes diamondEdges = some A ∧
      ∃ t ∈ A.probeTargets, t.probe_type = "node_negate_low" ∧
        t.on_critical_path = false ∧
        0 < pathRelevanceOf diamondNodes diamondEdges A.stats.outcome_node t.target_id) := by
  constructor
  · intro nodes edges outcome t ht
    rw [probeTargetsOf] at ht
    simp only [List.mem_append] at ht
    rcases ht with ((((((h | h) | h) | h) | h) | h) | h)
    · rw [highProbesOf] at h
      rcases hs : sortedNodesOf nodes edges outcome with _ | ⟨nm1, _ | ⟨nm2, rest⟩⟩ <;>
        rw [hs] at h <;>
        simp only [List.mem_cons, List.not_mem_nil, or_false] at h
      · subst h
        exact ⟨fun hh => absurd hh (by simp [mkNodeTarget]), fun _ => rfl⟩
      · rcases h with rfl | rfl
        · exact ⟨fun hh => absurd hh (by simp [mkNodeTarget]), fun _ => rfl⟩
        · exact ⟨fun hh => absurd hh (by simp [mkNodeTarget]), fun _ => rfl⟩
    · rw [mediumProbesOf] at h
      rcases hm : nth? (sortedNodesOf nodes edges outcome)
          ((sortedNodesOf nodes edges outcome).length / 2) with _ | nm <;>
        rw [hm] at h <;>
        simp only [List.mem_cons, List.not_mem_nil, or_false] at h
      subst h
      exact ⟨fun hh => absurd hh (by simp [mkNodeTarget]), fun _ => rfl⟩
    · rw [lowProbesOf] at h
      split_ifs at h with hlen
      · rcases hm : nth? (sortedNodesOf nodes edges outcome)
            ((sortedNodesOf nodes edges outcome).length - 1) with _ | nm <;>
          rw [hm] at h <;>
          simp only [List.mem_cons, List.not_mem_nil, or_false] at h
        subst h
        exact ⟨fun _ => rfl,
               fun hh => by rcases hh with hh | hh <;> simp [mkNodeTarget] at hh⟩
      · exact absurd h (List.not_mem_nil t)
    · rw [strengthenProbesOf] at h
      rcases hs : sortedNodesOf nodes edges outcome with _ | ⟨nm1, _ | ⟨nm2, rest⟩⟩ <;>
        rw [hs] at h <;>
        simp only [List.mem_cons, List.not_mem_nil, or_false] at h
      · subst h
        exact ⟨fun hh => absurd hh (by simp [mkNodeTarget]),
               fun hh => by rcases hh with hh | hh <;> simp [mkNodeTarget] at hh⟩
      · rcases h with rfl | rfl
        · exact ⟨fun hh => absurd hh (by simp [mkNodeTarget]),
                 fun hh => by rcases hh with hh | hh <;> simp [mkNodeTarget] at hh⟩
        · exact ⟨fun hh => absurd hh (by simp [mkNodeTarget]),
                 fun hh => by rcases hh with hh | hh <;> simp [mkNodeTarget] at hh⟩
    · rw [criticalEdgeProbesOf] at h
      rcases hc : (edgeMetricsOf nodes edges outcome).filter (·.on_critical_path) with
          _ | ⟨em1, _ | ⟨em2, rest⟩⟩ <;>
        rw [hc] at h <;>
        simp only [List.mem_cons, List.not_mem_nil, or_false] at h
      · subst h
        exact ⟨fun hh => absurd hh (by simp [mkCritTarget]),
               fun hh => by rcases hh with hh | hh <;> simp [mkCritTarget] at hh⟩
      · rcases h with rfl | rfl
        · exact ⟨fun hh => absurd hh (by simp [mkCritTarget]),
                 fun hh => by rcases hh with hh | hh <;> simp [mkCritTarget] at hh⟩
        · exact ⟨fun hh => absurd hh (by simp [mkCritTarget]),
                 fun hh => by rcases hh with hh | hh <;> simp [mkCritTarget] at hh⟩
    · rw [peripheralEdgeProbesOf] at h
      rcases hp : (edgeMetricsOf nodes edges outcome).filter
          (fun em => !em.on_critical_path) with _ | ⟨em, rest⟩ <;> rw [hp] at h <;>
        simp only [List.mem_cons, List.not_mem_nil, or_false] at h
      subst h
      exact ⟨fun hh => by simp at hh, fun hh => by rcases hh with hh | hh <;> simp at hh⟩
    · rw [structuralProbes] at h
      simp only [List.mem_cons, List.not_mem_nil, or_false] at h
      rcases h with rfl | rfl
      · exact ⟨fun hh => by simp at hh, fun hh => by rcases hh with hh | hh <;> simp at hh⟩
      · exact ⟨fun hh => by simp at hh, fun hh => by rcases hh with hh | hh <;> simp at hh⟩
  · have hrelb : pathRelevanceOf diamondNodes diamondEdges "out" "b" = 1/4 := by
      simp [diamondNodes, diamondEdges, pathRelevanceOf, pathsToOutcomeOf, onShortestPath,
        distOf, allPairsOf, bfsFrom, bfsGo, nub, nubAux, adjOf, nodeIds, alookup]
    have hlow : lowProbesOf diamondNodes diamondEdges "out" =
        [mkNodeTarget
          { node_id := "b", description := "b", role := "factor", in_degree := 1,
            out_degree := 1, betweenness := 2/3, closeness := 2/3, pagerank := 171/4000,
            path_relevance := 1/4, composite_importance := 7671/20000 }
          3 "node_negate_low" false] := by
      rw [lowProbesOf, diamond_sorted]
      simp [nth?]
    refine ⟨analysisCore diamondNodes diamondEdges "out", ?_, ?_⟩
    · simp [computeNetworkAnalysis, diamondNodes]
    · refine ⟨mkNodeTarget
        { node_id := "b", description := "b", role := "factor", in_degree := 1,
          out_degree := 1, betweenness := 2/3, closeness := 2/3, pagerank := 171/4000,
          path_relevance := 1/4, composite_importance := 7671/20000 }
        3 "node_negate_low" false, ?_, rfl, rfl, ?_⟩
      · show _ ∈ probeTargetsOf diamondNodes diamondEdges "out"
        rw [probeTargetsOf, hlow]
        simp [List.mem_append]
      · show 0 < pathRelevanceOf diamondNodes diamondEdges "out" "b"
        rw [hrelb]
        norm_num

theorem fourNodes_sorted : sortedNodesOf fourNodes [] "o" =
    [{ node_id := "x", description := "x", role := "factor", in_degree := 0, out_degree := 0,
       betweenness := 0, closeness := 0, pagerank := 3/80, path_relevance := 0,
       composite_importance := 3/400 },
     { node_id := "y", description := "y", role := "factor", in_degree := 0, out_degree := 0,
       betweenness := 0, closeness := 0, pagerank := 3/80, path_relevance := 0,
       composite_importance := 3/400 },
     { node_id := "z", description := "z", role := "factor", in_degree := 0, out_degree := 0,
       betweenness := 0, closeness := 0, pagerank := 3/80, path_relevance := 0,
       composite_importance := 3/400 }] := by
  simp [sortedNodesOf, nodeMetricsOf, fourNodes, betweennessOf, betweennessRaw, maxBetOf,
    onShortestPath, distOf, allPairsOf, bfsFrom, bfsGo, nub, nubAux, adjOf, revAdjOf, nodeIds,
    alookup, inDegOf, outDegOf, closenessOf, closenessRawOf, maxClOf, pathRelevanceOf,
    pathsToOutcomeOf, maxOutOf, compositeImportanceOf, pagerankOf, pagerankMap, prIter,
    prStep, prDenOf, insertByImportance]
  norm_num

/-- Claim C10, witness: the low probe of the four-node zero-edge fixture has
its flag forced to false by the theorem. -/
theorem C10_negate_low_flag_witness :
    ((mkNodeTarget
      { node_id := "z", description := "z", role := "factor", in_degree := 0, out_degree := 0,
        betweenness := 0, closeness := 0, pagerank := 3/80, path_relevance := 0,
        composite_importance := 3/400 } 3 "node_negate_low" false) ∈
        probeTargetsOf fourNodes [] "o" ∧
     (mkNodeTarget
      { node_id := "z", description := "z", role := "factor", in_degree := 0, out_degree := 0,
        betweenness := 0, closeness := 0, pagerank := 3/80, path_relevance := 0,
        composite_importance := 3/400 } 3 "node_negate_low" false).probe_type =
        "node_negate_low") ∧
    (mkNodeTarget
      { node_id := "z", description := "z", role := "factor", in_degree := 0, out_degree := 0,
        betweenness := 0, closeness := 0, pagerank := 3/80, path_relevance := 0,
        composite_importance := 3/400 } 3 "node_negate_low" false).on_critical_path = false :=
  ⟨⟨by
      rw [probeTargetsOf, lowProbesOf, fourNodes_sorted]
      simp [List.mem_append, nth?],
    rfl⟩,
   (C10_negate_low_flag_hardcoded.1 fourNodes [] "o" _
      (by
        rw [probeTargetsOf, lowProbesOf, fourNodes_sorted]
        simp [List.mem_append, nth?])).1 rfl⟩

end BSE

namespace BSE

theorem foldr_max_eq_of_le {α : Type} [LinearOrder α] {l : List α} {c : α}
    (h : ∀ x ∈ l, x ≤ c) : l.foldr max c = c := by
  induction l with
  | nil => rfl
  | cons x xs ih =>
    rw [List.foldr_cons, ih (fun y hy => h y (List.mem_cons.mpr (Or.inr hy)))]
    exact max_eq_right (h x (List.mem_cons.mpr (Or.inl rfl)))

theorem length_le_sum_of_pos {ds : List ℕ} (h : ∀ d ∈ ds, 0 < d) :
    (ds.length : ℚ) ≤ (ds.map (fun (d : ℕ) => (d : ℚ))).sum := by
  induction ds with
  | nil => simp
  | cons d rest ih =>
    rw [List.length_cons, List.map_cons, List.sum_cons]
    push_cast
    have h1 : (1 : ℚ) ≤ (d : ℚ) := by
      have := h d (List.mem_cons.mpr (Or.inl rfl))
      exact_mod_cast this
    have h2 := ih (fun y hy => h y (List.mem_cons.mpr (Or.inr hy)))
    linarith

theorem closenessRaw_nonneg (nodes : List CausalNode) (edges : List CausalEdge) (x : String) :
    0 ≤ closenessRawOf nodes edges x := by
  rw [closenessRawOf]
  split_ifs with h
  · apply div_nonneg (by positivity)
    apply List.sum_nonneg
    intro q hq
    rw [List.mem_map] at hq
    obtain ⟨d, _, rfl⟩ := hq
    positivity
  · exact le_refl _

theorem closenessRaw_le_one (nodes : List CausalNode) (edges : List CausalEdge) (x : String) :
    closenessRawOf nodes edges x ≤ 1 := by
  rw [closenessRawOf]
  split_ifs with h
  · set ds := ((bfsFrom nodes edges x).map (·.2)).filter (fun d => decide (0 < d)) with hds
    have hpos : ∀ d ∈ ds, 0 < d := by
      intro d hd
      rw [hds, List.mem_filter] at hd
      simpa using hd.2
    have hle := length_le_sum_of_pos hpos
    have hlen : (1 : ℚ) ≤ (ds.length : ℚ) := by exact_mod_cast h
    rw [div_le_one (by linarith)]
    exact hle
  · exact zero_le_one

theorem maxCl_eq_one (nodes : List CausalNode) (edges : List CausalEdge) :
    maxClOf nodes edges = 1 := by
  rw [maxClOf]
  apply foldr_max_eq_of_le
  intro q hq
  rw [List.mem_map] at hq
  obtain ⟨nd, _, rfl⟩ := hq
  exact closenessRaw_le_one nodes edges nd.id

/-- For every non-empty node list the analysis succeeds and equals
`analysisCore` at the resolved outcome node. -/
theorem computeNetworkAnalysis_some (nodes : List CausalNode) (edges : List CausalEdge)
    (hne : nodes ≠ []) :
    ∃ o, computeNetworkAnalysis nodes edges = some (analysisCore nodes edges o) := by
  unfold computeNetworkAnalysis
  cases hfind : nodes.find? (fun nd => decide (nd.role = "outcome")) with
  | some nd => exact ⟨nd.id, rfl⟩
  | none =>
    cases hlast : nodes.getLast? with
    | some last => exact ⟨last.id, rfl⟩
    | none => exact absurd (List.getLast?_eq_none_iff.mp hlast) hne

/-- Claim C5, amended.  Each node's raw closeness is
(count of reachable others)/(sum of finite distances) (0 when nothing is
reachable), as the claim states; but the normaliser is
`Math.max(...values, 1)`, which is always 1 because raw closeness never
exceeds 1, so the reported closeness equals the raw value and the maximum
reported closeness equals the maximum raw value, which can be strictly
below 1. -/
theorem C5_closeness_normalization_identity :
    ∀ (nodes : List CausalNode) (edges : List CausalEdge), nodes ≠ [] →
      ∃ A, computeNetworkAnalysis nodes edges = some A ∧
        ∀ nm ∈ A.nodeMetrics,
          nm.closeness = closenessRawOf nodes edges nm.node_id ∧
          0 ≤ nm.closeness ∧ nm.closeness ≤ 1 := by
  intro nodes edges hne
  obtain ⟨o, ho⟩ := computeNetworkAnalysis_some nodes edges hne
  refine ⟨analysisCore nodes edges o, ho, ?_⟩
  intro nm hnm
  have hnm' : nm ∈ nodeMetricsOf nodes edges o := hnm
  rw [nodeMetricsOf, List.mem_map] at hnm'
  obtain ⟨nd, _, rfl⟩ := hnm'
  refine ⟨?_, ?_, ?_⟩
  · show closenessOf nodes edges nd.id = closenessRawOf nodes edges nd.id
    rw [closenessOf, maxCl_eq_one, div_one]
  · show 0 ≤ closenessOf nodes edges nd.id
    rw [closenessOf, maxCl_eq_one, div_one]
    exact closenessRaw_nonneg nodes edges nd.id
  · show closenessOf nodes edges nd.id ≤ 1
    rw [closenessOf, maxCl_eq_one, div_one]
    exact closenessRaw_le_one nodes edges nd.id

/-- Claim C5, witness: the amended statement instantiated on the 3-cycle. -/
theorem C5_closeness_normalization_identity_witness :
    cycleNodes ≠ [] ∧
    (∃ A, computeNetworkAnalysis cycleNodes cycleEdges = some A ∧
      ∀ nm ∈ A.nodeMetrics,
        nm.closeness = closenessRawOf cycleNodes cycleEdges nm.node_id ∧
        0 ≤ nm.closeness ∧ nm.closeness ≤ 1) :=
  ⟨by simp [cycleNodes],
   C5_closeness_normalization_identity cycleNodes cycleEdges (by simp [cycleNodes])⟩

/-- Claim C5, counterexample.  On the 3-cycle `a→b→c→a` every node's raw
closeness is 2/3 (positive), yet the reported (claimed "normalized")
closeness values are all 2/3 — the maximum normalized closeness is not 1,
because the source divides by `Math.max(...values, 1) = 1`, not by the
maximum raw value. -/
theorem C5_counterexample_max_normalized_below_one :
    ∃ A, computeNetworkAnalysis cycleNodes cycleEdges = some A ∧
      A.nodeMetrics.map (·.closeness) = [2/3, 2/3, 2/3] ∧
      (∃ nm ∈ A.nodeMetrics, 0 < nm.closeness) ∧
      ∀ nm ∈ A.nodeMetrics, nm.closeness ≠ 1 := by
  have hmap : (nodeMetricsOf cycleNodes cycleEdges "c").map (·.closeness) = [2/3, 2/3, 2/3] := by
    simp [nodeMetricsOf, cycleNodes, cycleEdges, closenessOf, closenessRawOf, maxClOf,
      distOf, allPairsOf, bfsFrom, bfsGo, nub, nubAux, adjOf, nodeIds, alookup]
    norm_num
  refine ⟨analysisCore cycleNodes cycleEdges "c", ?_, hmap, ?_, ?_⟩
  · simp [computeNetworkAnalysis, cycleNodes]
  · rcases hL : nodeMetricsOf cycleNodes cycleEdges "c" with _ | ⟨m0, rest⟩
    · rw [hL] at hmap
      exact absurd hmap (by simp)
    · rw [hL] at hmap
      simp only [List.map_cons, List.cons.injEq] at hmap
      refine ⟨m0, ?_, ?_⟩
      · show m0 ∈ nodeMetricsOf cycleNodes cycleEdges "c"
        rw [hL]
        exact List.mem_cons_self m0 rest
      · rw [hmap.1]
        norm_num
  · intro nm hnm
    have h2 : nm.closeness ∈ (nodeMetricsOf cycleNodes cycleEdges "c").map (·.closeness) :=
      List.mem_map.mpr ⟨nm, hnm, rfl⟩
    rw [hmap] at h2
    simp at h2
    rw [h2]
    norm_num

end BSE
namespace BSE

theorem alookup_map_self {α : Type} (nodes : List CausalNode) (f : String → α) (x : String) :
    alookup (nodes.map (fun nd => (nd.id, f nd.id))) x =
      if x ∈ nodeIds nodes then some (f x) else none := by
  induction nodes with
  | nil => simp [alookup, nodeIds]
  | cons nd rest ih =>
    rw [List.map_cons]
    show (if nd.id = x then some (f nd.id) else alookup _ x) = _
    by_cases h : nd.id = x
    · subst h
      rw [if_pos rfl, if_pos (by simp [nodeIds])]
    · rw [if_neg h, ih]
      by_cases hx : x ∈ nodeIds rest
      · have hmem : x ∈ nodeIds (nd :: rest) := by
          simp only [nodeIds, List.map_cons, List.mem_cons]
          right
          simpa [nodeIds] using hx
        rw [if_pos hx, if_pos hmem]
      · have hmem : x ∉ nodeIds (nd :: rest) := by
          simp only [nodeIds, List.map_cons, List.mem_cons]
          rintro (h1 | h2)
          · exact h h1.symm
          · exact hx (by simpa [nodeIds] using h2)
        rw [if_neg hx, if_neg hmem]

theorem adjOf_nil (nodes : List CausalNode) (x : String) : adjOf nodes [] x = [] := by
  simp [adjOf]

theorem revAdjOf_nil (nodes : List CausalNode) (x : String) : revAdjOf nodes [] x = [] := by
  simp [revAdjOf]

theorem bfsFrom_nil (nodes : List CausalNode) (hne : nodes ≠ []) (s : String) :
    bfsFrom nodes [] s = [(s, 0)] := by
  obtain ⟨k, hk⟩ : ∃ k, nodes.length = k + 1 := by
    cases hn : nodes.length with
    | zero => exact absurd (List.length_eq_zero.mp hn) hne
    | succ k => exact ⟨k, rfl⟩
  rw [bfsFrom, hk]
  show bfsGo _ (k + 1) [(s, 0)] [s] 1 = [(s, 0)]
  rw [bfsGo]
  simp [adjOf_nil, nub, nubAux]

theorem distOf_nil (nodes : List CausalNode) (hne : nodes ≠ []) (s t : String) :
    distOf nodes [] s t = if s ∈ nodeIds nodes ∧ t = s then some 0 else none := by
  rw [distOf, allPairsOf]
  have hb : ∀ nd ∈ nodes, bfsFrom nodes [] nd.id = [(nd.id, 0)] := fun nd _ => bfsFrom_nil nodes hne nd.id
  rw [show nodes.map (fun nd => (nd.id, bfsFrom nodes [] nd.id)) =
      nodes.map (fun nd => (nd.id, [(nd.id, 0)])) from List.map_congr_left (by
        intro nd hnd
        rw [hb nd hnd])]
  rw [alookup_map_self nodes (fun i => [(i, 0)]) s]
  by_cases hs : s ∈ nodeIds nodes
  · rw [if_pos hs]
    show (if s = t then some 0 else alookup [] t) = _
    by_cases ht : t = s
    · subst ht
      rw [if_pos rfl, if_pos ⟨hs, rfl⟩]
    · rw [if_neg (fun h => ht h.symm), if_neg (fun h => ht h.2), alookup]
  · rw [if_neg hs, if_neg (fun h => hs h.1)]

end BSE

namespace BSE

theorem betweennessRaw_nil (nodes : List CausalNode) (hne : nodes ≠ []) (m : String) :
    betweennessRaw nodes [] m = 0 := by
  rw [betweennessRaw]
  apply List.sum_eq_zero
  intro q hq
  rw [List.mem_map] at hq
  obtain ⟨s, _, rfl⟩ := hq
  rw [List.length_eq_zero, List.filter_eq_nil_iff]
  intro t _
  by_cases h : s.id = t.id
  · simp [h]
  · have : (distOf nodes [] s.id t.id).isSome = false := by
      rw [distOf_nil nodes hne]
      rw [if_neg (fun hc => h hc.2.symm)]
      rfl
    simp [this]

theorem maxBet_nil (nodes : List CausalNode) (hne : nodes ≠ []) :
    maxBetOf nodes [] = 1 := by
  rw [maxBetOf]
  apply foldr_max_eq_of_le
  intro q hq
  rw [List.mem_map] at hq
  obtain ⟨nd, _, rfl⟩ := hq
  rw [betweennessRaw_nil nodes hne]
  exact Nat.zero_le 1

theorem betweennessOf_nil (nodes : List CausalNode) (hne : nodes ≠ []) (m : String) :
    betweennessOf nodes [] m = 0 := by
  rw [betweennessOf, betweennessRaw_nil nodes hne]
  simp

theorem pathsToOutcome_nil (nodes : List CausalNode) (hne : nodes ≠ []) (o : String) :
    pathsToOutcomeOf nodes [] o = [] := by
  rw [pathsToOutcomeOf]
  rw [show nodes.filter (fun nd => (distOf nodes [] nd.id o).isSome && decide (¬ nd.id = o)) = [] from ?_]
  · rfl
  · rw [List.filter_eq_nil_iff]
    intro nd _
    by_cases h : nd.id = o
    · simp [h]
    · have : (distOf nodes [] nd.id o).isSome = false := by
        rw [distOf_nil nodes hne, if_neg (fun hc => h hc.2.symm)]
        rfl
      simp [this]

theorem pathRelevance_nil (nodes : List CausalNode) (hne : nodes ≠ []) (o m : String) :
    pathRelevanceOf nodes [] o m = 0 := by
  rw [pathRelevanceOf]
  split_ifs with h
  · rfl
  · rw [pathsToOutcome_nil nodes hne]
    simp

theorem pagerank_nil (nodes : List CausalNode) (hne : nodes ≠ []) (x : String)
    (hx : x ∈ nodeIds nodes) :
    pagerankOf nodes [] x = (3/20) / (nodes.length : ℚ) := by
  rw [pagerankOf, pagerankMap]
  show (alookup (prStep nodes [] (prIter nodes [] 19)) x).getD 0 = _
  rw [prStep]
  rw [show nodes.map (fun nd => (nd.id,
      (1 - 17/20) / (nodes.length : ℚ) +
        17/20 * (((revAdjOf nodes [] nd.id).map
          (fun pred => (alookup (prIter nodes [] 19) pred).getD 0 /
            prDenOf nodes [] pred)).sum))) =
    nodes.map (fun nd => (nd.id, (3/20) / (nodes.length : ℚ))) from
    List.map_congr_left (by
      intro nd _
      rw [revAdjOf_nil]
      norm_num)]
  rw [alookup_map_self nodes (fun _ => (3/20) / (nodes.length : ℚ)) x, if_pos hx]
  rfl

theorem closenessRaw_nil (nodes : List CausalNode) (hne : nodes ≠ []) (x : String) :
    closenessRawOf nodes [] x = 0 := by
  rw [closenessRawOf, bfsFrom_nil nodes hne]
  rfl

theorem closenessOf_nil (nodes : List CausalNode) (hne : nodes ≠ []) (x : String) :
    closenessOf nodes [] x = 0 := by
  rw [closenessOf, closenessRaw_nil nodes hne]
  simp

theorem densityStat_nil (nodes : List CausalNode) :
    roundDensity (densityOf nodes []) = 0 := by
  have h0 : densityOf nodes [] = 0 := by
    rw [densityOf]
    split_ifs with h
    · simp
    · rfl
  rw [h0, roundDensity]
  norm_num

end BSE

namespace BSE

theorem dagLoop_empty_adj (adj : String → List String) (hadj : ∀ y, adj y = [])
    (fuel : Nat) (hf : fuel ≠ 0) :
    ∀ (l : List String) (vis : List String), dagLoop adj fuel l ⟨[], vis⟩ = true := by
  intro l
  induction l with
  | nil => intro vis; rfl
  | cons x rest ih =>
    intro vis
    obtain ⟨k, rfl⟩ : ∃ k, fuel = k + 1 := by
      cases fuel with
      | zero => exact absurd rfl hf
      | succ k => exact ⟨k, rfl⟩
    rw [dagLoop]
    by_cases hx : x ∈ vis
    · rw [if_pos (by simpa using hx)]
      exact ih vis
    · rw [if_neg (by simpa using hx)]
      have hv : dfsVisit adj (k + 1) x ⟨[], vis⟩ = some ⟨[], x :: vis⟩ := by
        rw [dfsVisit]
        rw [if_neg (by simp)]
        rw [if_neg (by simpa using hx)]
        rw [hadj x]
        simp only [dfsChildren]
        simp [List.erase_cons_head]
      rw [hv]
      exact ih (x :: vis)

theorem isDag_nil (nodes : List CausalNode) : isDagOf nodes [] = true := by
  rw [isDagOf]
  exact dagLoop_empty_adj (adjOf nodes []) (adjOf_nil nodes)
    (nodes.length + 0 + 2) (by omega) (nodeIds nodes) []


end BSE

namespace BSE

/-- Claim C6, amended.  For every non-empty graph with zero edges, every
node's betweenness, path relevance and closeness are 0, density is 0 and the
graph is a DAG, as claimed; PageRank however is uniformly `(1−d)/n = 0.15/n`
(the mass lost at out-degree-0 nodes is not restored), not `1/n`. -/
theorem C6_zero_edge_defaults :
    ∀ nodes : List CausalNode, nodes ≠ [] →
      ∃ A, computeNetworkAnalysis nodes [] = some A ∧
        (∀ nm ∈ A.nodeMetrics,
          nm.betweenness = 0 ∧ nm.path_relevance = 0 ∧ nm.closeness = 0 ∧
          nm.pagerank = (3/20) / (nodes.length : ℚ)) ∧
        A.stats.density = 0 ∧ A.stats.is_dag = true := by
  intro nodes hne
  obtain ⟨o, ho⟩ := computeNetworkAnalysis_some nodes [] hne
  refine ⟨analysisCore nodes [] o, ho, ?_, ?_, ?_⟩
  · intro nm hnm
    have hnm' : nm ∈ nodeMetricsOf nodes [] o := hnm
    rw [nodeMetricsOf, List.mem_map] at hnm'
    obtain ⟨nd, hnd, rfl⟩ := hnm'
    refine ⟨betweennessOf_nil nodes hne nd.id, pathRelevance_nil nodes hne o nd.id,
      closenessOf_nil nodes hne nd.id, ?_⟩
    show pagerankOf nodes [] nd.id = _
    exact pagerank_nil nodes hne nd.id (by
      rw [nodeIds, List.mem_map]
      exact ⟨nd, hnd, rfl⟩)
  · exact densityStat_nil nodes
  · exact isDag_nil nodes

/-- Claim C6, witness: the amended statement at the single-node graph. -/
theorem C6_zero_edge_defaults_witness :
    singleNode ≠ [] ∧
    (∃ A, computeNetworkAnalysis singleNode [] = some A ∧
      (∀ nm ∈ A.nodeMetrics,
        nm.betweenness = 0 ∧ nm.path_relevance = 0 ∧ nm.closeness = 0 ∧
        nm.pagerank = (3/20) / (singleNode.length : ℚ)) ∧
      A.stats.density = 0 ∧ A.stats.is_dag = true) :=
  ⟨by simp [singleNode], C6_zero_edge_defaults singleNode (by simp [singleNode])⟩

/-- Claim C6, counterexample.  On the single-node zero-edge graph the
computed PageRank is 0.15, not `1/n = 1`: after one damped iteration with no
incoming mass each node holds `(1−0.85)/n` and stays there. -/
theorem C6_counterexample_pagerank_value :
    ∃ A, computeNetworkAnalysis singleNode [] = some A ∧
      A.nodeMetrics.map (·.pagerank) = [3/20] ∧
      ((3 : ℚ)/20) ≠ 1 / ((singleNode.length : ℚ)) := by
  refine ⟨analysisCore singleNode [] "a", ?_, ?_, by norm_num [singleNode]⟩
  · simp [computeNetworkAnalysis, singleNode]
  · show (nodeMetricsOf singleNode [] "a").map (·.pagerank) = _
    simp [nodeMetricsOf, singleNode, pagerankOf, pagerankMap, prIter, prStep, revAdjOf,
      nodeIds, alookup, adjOf, prDenOf]
    norm_num

end BSE
namespace BSE

theorem list_sum_map_add {α : Type} (l : List α) (f g : α → ℚ) :
    (l.map (fun x => f x + g x)).sum = (l.map f).sum + (l.map g).sum := by
  induction l with
  | nil => simp
  | cons x xs ih => simp [ih]; ring

theorem list_sum_map_mul_left {α : Type} (l : List α) (c : ℚ) (f : α → ℚ) :
    (l.map (fun x => c * f x)).sum = c * (l.map f).sum := by
  induction l with
  | nil => simp
  | cons x xs ih => simp [ih]; ring

theorem list_sum_map_const {α : Type} (l : List α) (c : ℚ) :
    (l.map (fun _ => c)).sum = (l.length : ℚ) * c := by
  induction l with
  | nil => simp
  | cons x xs ih =>
    rw [List.map_cons, List.sum_cons, ih, List.length_cons]
    push_cast
    ring

theorem sum_if_single {β : Type} (keys : List String) (key : β → String) (b : β) (c : ℚ)
    (hnd : keys.Nodup) (hb : key b ∈ keys) :
    (keys.map (fun k => if key b = k then c else 0)).sum = c := by
  induction keys with
  | nil => exact absurd hb (List.not_mem_nil _)
  | cons k ks ih =>
    rw [List.map_cons, List.sum_cons]
    rcases List.mem_cons.mp hb with h1 | h2
    · rw [if_pos h1]
      have hz : (ks.map (fun k => if key b = k then c else 0)).sum = 0 := by
        apply List.sum_eq_zero
        intro q hq
        rw [List.mem_map] at hq
        obtain ⟨k', hk', rfl⟩ := hq
        rw [if_neg]
        intro hc
        exact (List.nodup_cons.mp hnd).1 (h1 ▸ hc ▸ hk')
      rw [hz, add_zero]
    · have hne : ¬ key b = k := by
        intro hc
        exact (List.nodup_cons.mp hnd).1 (hc ▸ h2)
      rw [if_neg hne, ih (List.nodup_cons.mp hnd).2 h2, zero_add]

theorem sum_partition {β : Type} (keys : List String) (items : List β) (key : β → String)
    (g : β → ℚ) (hnd : keys.Nodup) (hmem : ∀ b ∈ items, key b ∈ keys) :
    (keys.map (fun k => ((items.filter (fun b => decide (key b = k))).map g).sum)).sum =
      (items.map g).sum := by
  induction items with
  | nil =>
    simp only [List.filter_nil, List.map_nil, List.sum_nil]
    exact List.sum_eq_zero (by
      intro q hq
      rw [List.mem_map] at hq
      obtain ⟨k, _, rfl⟩ := hq
      rfl)
  | cons b items' ih =>
    have hstep : ∀ k, ((List.filter (fun x => decide (key x = k)) (b :: items')).map g).sum =
        (if key b = k then g b else 0) +
          ((List.filter (fun x => decide (key x = k)) items').map g).sum := by
      intro k
      rw [List.filter_cons]
      by_cases h : key b = k
      · rw [if_pos (by simpa using h), if_pos h, List.map_cons, List.sum_cons]
      · rw [if_neg (by simpa using h), if_neg h, zero_add]
    rw [List.map_congr_left (fun k _ => hstep k), list_sum_map_add, List.map_cons, List.sum_cons,
      sum_if_single keys key b (g b) hnd (hmem b (List.mem_cons.mpr (Or.inl rfl))),
      ih (fun x hx => hmem x (List.mem_cons.mpr (Or.inr hx)))]

theorem alookup_nonneg {pr : List (String × ℚ)} (h : ∀ kv ∈ pr, 0 ≤ kv.2) (p : String) :
    0 ≤ (alookup pr p).getD 0 := by
  induction pr with
  | nil => exact le_refl 0
  | cons kv rest ih =>
    obtain ⟨k, v⟩ := kv
    show 0 ≤ (if k = p then some v else alookup rest p).getD 0
    by_cases hk : k = p
    · rw [if_pos hk]
      exact h (k, v) (List.mem_cons.mpr (Or.inl rfl))
    · rw [if_neg hk]
      exact ih (fun kv' hkv' => h kv' (List.mem_cons.mpr (Or.inr hkv')))

theorem alookup_mem {pr : List (String × ℚ)} {p : String} {v : ℚ}
    (h : alookup pr p = some v) : (p, v) ∈ pr := by
  induction pr with
  | nil => exact absurd h (by simp [alookup])
  | cons kv rest ih =>
    obtain ⟨k, w⟩ := kv
    rw [show alookup ((k, w) :: rest) p = if k = p then some w else alookup rest p from rfl] at h
    by_cases hk : k = p
    · rw [if_pos hk] at h
      subst hk
      cases h
      exact List.mem_cons.mpr (Or.inl rfl)
    · rw [if_neg hk] at h
      exact List.mem_cons.mpr (Or.inr (ih h))

theorem alookup_isSome {pr : List (String × ℚ)} {p : String}
    (h : p ∈ pr.map Prod.fst) : (alookup pr p).isSome := by
  induction pr with
  | nil => exact absurd h (by simp)
  | cons kv rest ih =>
    obtain ⟨k, w⟩ := kv
    show (if k = p then some w else alookup rest p).isSome
    by_cases hk : k = p
    · rw [if_pos hk]; rfl
    · rw [if_neg hk]
      rw [List.map_cons, List.mem_cons] at h
      rcases h with h1 | h2
      · exact absurd h1.symm hk
      · exact ih h2

theorem alookup_values_sum {pr : List (String × ℚ)} {keys : List String}
    (hk : pr.map Prod.fst = keys) (hnd : keys.Nodup) :
    (keys.map (fun k => (alookup pr k).getD 0)).sum = (pr.map (·.2)).sum := by
  induction pr generalizing keys with
  | nil =>
    subst hk
    simp
  | cons kv rest ih =>
    obtain ⟨k0, v0⟩ := kv
    subst hk
    rw [List.map_cons, List.map_cons, List.sum_cons, List.map_cons, List.sum_cons]
    have h0 : (alookup ((k0, v0) :: rest) k0).getD 0 = v0 := by
      show (if k0 = k0 then some v0 else alookup rest k0).getD 0 = v0
      rw [if_pos rfl]
      rfl
    have hnd' := List.nodup_cons.mp hnd
    have hrest : ∀ k ∈ rest.map Prod.fst,
        (alookup ((k0, v0) :: rest) k).getD 0 = (alookup rest k).getD 0 := by
      intro k hkmem
      show (if k0 = k then some v0 else alookup rest k).getD 0 = _
      rw [if_neg (fun hc => hnd'.1 (by rw [hc]; exact hkmem))]
    rw [h0, List.map_congr_left hrest, ih rfl hnd'.2]

end BSE

namespace BSE

theorem list_sum_affine {α : Type} (l : List α) (c d : ℚ) (f : α → ℚ) :
    (l.map (fun x => c + d * f x)).sum = (l.length : ℚ) * c + d * (l.map f).sum := by
  induction l with
  | nil => simp
  | cons x xs ih =>
    rw [List.map_cons, List.sum_cons, ih, List.length_cons, List.map_cons, List.sum_cons]
    push_cast
    ring

theorem filter_from_sum (edges : List CausalEdge) (k : String) (g : String → ℚ) :
    ((edges.filter (fun e => decide (e.from' = k))).map (fun e => g e.from')).sum =
      ((edges.filter (fun e => decide (e.from' = k))).length : ℚ) * g k := by
  induction edges with
  | nil => simp
  | cons e rest ih =>
    rw [List.filter_cons]
    by_cases h : e.from' = k
    · rw [if_pos (by simpa using h), List.map_cons, List.sum_cons, List.length_cons, ih, h]
      push_cast
      ring
    · rw [if_neg (by simpa using h), ih]

theorem outDeg_filter (nodes : List CausalNode) (edges : List CausalEdge) (k : String)
    (hk : k ∈ nodeIds nodes) :
    (edges.filter (fun e => decide (e.from' = k))).length = outDegOf nodes edges k := by
  rw [outDegOf, adjOf, if_pos hk, List.length_map]

theorem prDen_pos (nodes : List CausalNode) (edges : List CausalEdge) (p : String) :
    0 < prDenOf nodes edges p := by
  rw [prDenOf]
  split_ifs with h
  · norm_num
  · exact_mod_cast Nat.pos_of_ne_zero h

theorem prIter_keys (nodes : List CausalNode) (edges : List CausalEdge) :
    ∀ k, (prIter nodes edges k).map Prod.fst = nodeIds nodes := by
  intro k
  cases k with
  | zero =>
    rw [prIter, List.map_map]
    rfl
  | succ k =>
    rw [prIter, prStep, List.map_map]
    rfl

theorem prIter_nonneg (nodes : List CausalNode) (edges : List CausalEdge) :
    ∀ k, ∀ kv ∈ prIter nodes edges k, 0 ≤ kv.2 := by
  intro k
  induction k with
  | zero =>
    intro kv hkv
    rw [prIter, List.mem_map] at hkv
    obtain ⟨nd, _, rfl⟩ := hkv
    show (0 : ℚ) ≤ 1 / (nodes.length : ℚ)
    positivity
  | succ k ih =>
    intro kv hkv
    rw [prIter, prStep, List.mem_map] at hkv
    obtain ⟨nd, _, rfl⟩ := hkv
    show (0 : ℚ) ≤ (1 - 17/20) / (nodes.length : ℚ) + 17/20 * _
    have h1 : (0 : ℚ) ≤ (1 - 17/20) / (nodes.length : ℚ) := by positivity
    have h2 : (0 : ℚ) ≤ ((revAdjOf nodes edges nd.id).map
        (fun pred => (alookup (prIter nodes edges k) pred).getD 0 /
          prDenOf nodes edges pred)).sum := by
      apply List.sum_nonneg
      intro q hq
      rw [List.mem_map] at hq
      obtain ⟨p, _, rfl⟩ := hq
      exact div_nonneg (alookup_nonneg ih p) (le_of_lt (prDen_pos nodes edges p))
    linarith

theorem sum_T_le (nodes : List CausalNode) (edges : List CausalEdge)
    (hnd : (nodeIds nodes).Nodup)
    (hval : ∀ e ∈ edges, e.from' ∈ nodeIds nodes ∧ e.to' ∈ nodeIds nodes)
    (pr : List (String × ℚ)) (hnn : ∀ kv ∈ pr, 0 ≤ kv.2) :
    (nodes.map (fun nd => ((revAdjOf nodes edges nd.id).map
        (fun p => (alookup pr p).getD 0 / prDenOf nodes edges p)).sum)).sum ≤
      ((nodeIds nodes).map (fun k => (alookup pr k).getD 0)).sum := by
  set g : String → ℚ := fun p => (alookup pr p).getD 0 / prDenOf nodes edges p with hg
  have h1 : ∀ nd ∈ nodes, ((revAdjOf nodes edges nd.id).map g).sum =
      ((edges.filter (fun e => decide (e.to' = nd.id))).map (fun e => g e.from')).sum := by
    intro nd hnd'
    rw [revAdjOf, if_pos (by rw [nodeIds, List.mem_map]; exact ⟨nd, hnd', rfl⟩), List.map_map]
    rfl
  rw [List.map_congr_left h1]
  have h2 : (nodes.map (fun nd =>
      ((edges.filter (fun e => decide (e.to' = nd.id))).map (fun e => g e.from')).sum)).sum =
    ((nodeIds nodes).map (fun k =>
      ((edges.filter (fun e => decide (e.to' = k))).map (fun e => g e.from')).sum)).sum := by
    rw [nodeIds, List.map_map]
    rfl
  rw [h2, sum_partition (nodeIds nodes) edges (fun e => e.to') (fun e => g e.from') hnd
    (fun e he => (hval e he).2)]
  rw [← sum_partition (nodeIds nodes) edges (fun e => e.from') (fun e => g e.from') hnd
    (fun e he => (hval e he).1)]
  apply List.sum_le_sum
  intro k hk
  rw [filter_from_sum, outDeg_filter nodes edges k hk]
  by_cases hz : outDegOf nodes edges k = 0
  · rw [hz]
    push_cast
    rw [zero_mul]
    exact alookup_nonneg hnn k
  · rw [hg]
    show (outDegOf nodes edges k : ℚ) * ((alookup pr k).getD 0 / prDenOf nodes edges k) ≤ _
    rw [prDenOf, if_neg hz, mul_comm,
      div_mul_cancel₀ ((alookup pr k).getD 0) (by exact_mod_cast hz)]

end BSE

namespace BSE

theorem sum_prStep_le (nodes : List CausalNode) (edges : List CausalEdge)
    (hne : nodes ≠ []) (hnd : (nodeIds nodes).Nodup)
    (hval : ∀ e ∈ edges, e.from' ∈ nodeIds nodes ∧ e.to' ∈ nodeIds nodes)
    (pr : List (String × ℚ)) (hnn : ∀ kv ∈ pr, 0 ≤ kv.2)
    (hkeys : pr.map Prod.fst = nodeIds nodes)
    (hsum : (pr.map (·.2)).sum ≤ 1) :
    ((prStep nodes edges pr).map (·.2)).sum ≤ 1 := by
  have hn0 : (nodes.length : ℚ) ≠ 0 := by
    have : nodes.length ≠ 0 := fun hc => hne (List.length_eq_zero.mp hc)
    exact_mod_cast this
  have hmm : ((prStep nodes edges pr).map (·.2)).sum =
      (nodes.map (fun nd => (1 - 17/20) / (nodes.length : ℚ) +
        17/20 * ((revAdjOf nodes edges nd.id).map
          (fun p => (alookup pr p).getD 0 / prDenOf nodes edges p)).sum)).sum := by
    rw [prStep, List.map_map]
    rfl
  rw [hmm, list_sum_affine]
  have hT := sum_T_le nodes edges hnd hval pr hnn
  have hvals : ((nodeIds nodes).map (fun k => (alookup pr k).getD 0)).sum =
      (pr.map (·.2)).sum := alookup_values_sum hkeys hnd
  have hconst : (nodes.length : ℚ) * ((1 - 17/20) / (nodes.length : ℚ)) = 3/20 := by
    field_simp
    ring
  rw [hconst]
  have : (nodes.map (fun nd => ((revAdjOf nodes edges nd.id).map
      (fun p => (alookup pr p).getD 0 / prDenOf nodes edges p)).sum)).sum ≤ 1 := by
    rw [← hvals] at hsum
    linarith [hT]
  linarith

theorem prIter_sum_le (nodes : List CausalNode) (edges : List CausalEdge)
    (hne : nodes ≠ []) (hnd : (nodeIds nodes).Nodup)
    (hval : ∀ e ∈ edges, e.from' ∈ nodeIds nodes ∧ e.to' ∈ nodeIds nodes) :
    ∀ k, ((prIter nodes edges k).map (·.2)).sum ≤ 1 := by
  intro k
  induction k with
  | zero =>
    have hn0 : (nodes.length : ℚ) ≠ 0 := by
      have : nodes.length ≠ 0 := fun hc => hne (List.length_eq_zero.mp hc)
      exact_mod_cast this
    have : ((prIter nodes edges 0).map (·.2)).sum =
        (nodes.map (fun _ => 1 / (nodes.length : ℚ))).sum := by
      rw [prIter, List.map_map]
      rfl
    rw [this, list_sum_map_const, mul_one_div, div_self hn0]
  | succ k ih =>
    rw [prIter]
    exact sum_prStep_le nodes edges hne hnd hval (prIter nodes edges k)
      (prIter_nonneg nodes edges k) (prIter_keys nodes edges k) ih

/-- Claim C2, amended.  For every validated graph (unique node ids, every
edge endpoint an existing node id) each node's PageRank after the 20 damped
iterations lies in [0,1], and the PageRank values sum to at most 1 across
nodes; the sum can fall below 1 because the mass held by out-degree-0 nodes
is not redistributed. -/
theorem C2_pagerank_unit_interval_sum_le_one :
    ∀ (nodes : List CausalNode) (edges : List CausalEdge),
      nodes ≠ [] → (nodeIds nodes).Nodup →
      (∀ e ∈ edges, e.from' ∈ nodeIds nodes ∧ e.to' ∈ nodeIds nodes) →
      ∃ A, computeNetworkAnalysis nodes edges = some A ∧
        (∀ nm ∈ A.nodeMetrics, 0 ≤ nm.pagerank ∧ nm.pagerank ≤ 1) ∧
        (A.nodeMetrics.map (·.pagerank)).sum ≤ 1 := by
  intro nodes edges hne hnd hval
  obtain ⟨o, ho⟩ := computeNetworkAnalysis_some nodes edges hne
  have hsum20 := prIter_sum_le nodes edges hne hnd hval 20
  have hnn20 := prIter_nonneg nodes edges 20
  have hkeys20 := prIter_keys nodes edges 20
  refine ⟨analysisCore nodes edges o, ho, ?_, ?_⟩
  · intro nm hnm
    have hnm' : nm ∈ nodeMetricsOf nodes edges o := hnm
    rw [nodeMetricsOf, List.mem_map] at hnm'
    obtain ⟨nd, hndm, rfl⟩ := hnm'
    show 0 ≤ pagerankOf nodes edges nd.id ∧ pagerankOf nodes edges nd.id ≤ 1
    have hx : nd.id ∈ (prIter nodes edges 20).map Prod.fst := by
      rw [hkeys20, nodeIds, List.mem_map]
      exact ⟨nd, hndm, rfl⟩
    obtain ⟨v, hv⟩ := Option.isSome_iff_exists.mp (alookup_isSome hx)
    have hpg : pagerankOf nodes edges nd.id = v := by
      rw [pagerankOf, pagerankMap]
      rw [show prIter nodes edges 20 = prIter nodes edges 20 from rfl] at hv
      rw [hv]
      rfl
    have hmem := alookup_mem hv
    constructor
    · rw [hpg]
      exact hnn20 (nd.id, v) hmem
    · rw [hpg]
      have hvmem : v ∈ (prIter nodes edges 20).map (·.2) :=
        List.mem_map.mpr ⟨(nd.id, v), hmem, rfl⟩
      have hle := List.single_le_sum (fun y hy => by
        rw [List.mem_map] at hy
        obtain ⟨kv, hkv, rfl⟩ := hy
        exact hnn20 kv hkv) v hvmem
      linarith
  · have hmapeq : ((nodeMetricsOf nodes edges o).map (·.pagerank)).sum =
        ((nodeIds nodes).map (fun k => (alookup (prIter nodes edges 20) k).getD 0)).sum := by
      rw [nodeMetricsOf, List.map_map, nodeIds, List.map_map]
      rfl
    show ((nodeMetricsOf nodes edges o).map (·.pagerank)).sum ≤ 1
    rw [hmapeq, alookup_values_sum hkeys20 hnd]
    exact hsum20

end BSE

namespace BSE

/-- Claim C2, counterexample.  On the single-node zero-edge graph the
PageRank values sum to 3/20, not 1: the lone node has out-degree 0, so the
damped iteration keeps only the teleport share (1−d)/n = 0.15. -/
theorem C2_counterexample_sum_below_one :
    ∃ A, computeNetworkAnalysis singleNode [] = some A ∧
      (A.nodeMetrics.map (·.pagerank)).sum = 3/20 ∧ ((3 : ℚ)/20) ≠ 1 := by
  refine ⟨analysisCore singleNode [] "a", ?_, ?_, by norm_num⟩
  · simp [computeNetworkAnalysis, singleNode]
  · show ((nodeMetricsOf singleNode [] "a").map (·.pagerank)).sum = _
    simp [nodeMetricsOf, singleNode, pagerankOf, pagerankMap, prIter, prStep, revAdjOf,
      nodeIds, alookup, adjOf, prDenOf]
    norm_num

/-- Claim C2, witness: the amended statement instantiated on the validated
3-cycle. -/
theorem C2_pagerank_unit_interval_witness :
    (cycleNodes ≠ [] ∧ (nodeIds cycleNodes).Nodup ∧
      (∀ e ∈ cycleEdges, e.from' ∈ nodeIds cycleNodes ∧ e.to' ∈ nodeIds cycleNodes)) ∧
    (∃ A, computeNetworkAnalysis cycleNodes cycleEdges = some A ∧
      (∀ nm ∈ A.nodeMetrics, 0 ≤ nm.pagerank ∧ nm.pagerank ≤ 1) ∧
      (A.nodeMetrics.map (·.pagerank)).sum ≤ 1) :=
  ⟨⟨by simp [cycleNodes], by simp [nodeIds, cycleNodes], by
      intro e he
      simp only [cycleEdges, List.mem_cons, List.not_mem_nil, or_false] at he
      rcases he with rfl | rfl | rfl <;> simp [nodeIds, cycleNodes]⟩,
   C2_pagerank_unit_interval_sum_le_one cycleNodes cycleEdges (by simp [cycleNodes]) (by simp [nodeIds, cycleNodes]) (by
      intro e he
      simp only [cycleEdges, List.mem_cons, List.not_mem_nil, or_false] at he
      rcases he with rfl | rfl | rfl <;> simp [nodeIds, cycleNodes])⟩

end BSE
